import Mathlib

/-!
# Verification of the typeid-python codec and helpers

Shallow embedding of the `typeid` Python package (base32 codec, prefix and
suffix validation, string splitting, identifier construction, and the
explain engine) together with proofs about the embedded definitions.

Python strings are modelled as `List Char` (a Python `str` is a sequence of
Unicode code points); `bytes(s, "utf-8")` is modelled by an explicit UTF-8
encoder.  Machine integers are `Nat` (Python integers are unbounded, so no
wrap-around modelling is needed).  Functions that can raise return `Option`.
-/

namespace TypeidPy

/-- The fixed 32-character base32 alphabet from `typeid/base32.py`
(`ALPHABET = "0123456789abcdefghjkmnpqrstvwxyz"`). -/
def ALPHABET : List Char := "0123456789abcdefghjkmnpqrstvwxyz".toList

/-- The 256-entry decode table from `typeid/base32.py` (`TABLE`): maps an
ASCII byte to its 5-bit value, `0xFF` marking an invalid byte. -/
def TABLE : List Nat :=
  [0xFF, 0xFF, 0xFF, 0xFF, 0xFF, 0xFF, 0xFF, 0xFF,
   0xFF, 0xFF, 0xFF, 0xFF, 0xFF, 0xFF, 0xFF, 0xFF,
   0xFF, 0xFF, 0xFF, 0xFF, 0xFF, 0xFF, 0xFF, 0xFF,
   0xFF, 0xFF, 0xFF, 0xFF, 0xFF, 0xFF, 0xFF, 0xFF,
   0xFF, 0xFF, 0xFF, 0xFF, 0xFF, 0xFF, 0xFF, 0xFF,
   0xFF, 0xFF, 0xFF, 0xFF, 0xFF, 0xFF, 0xFF, 0xFF,
   0x00, 0x01, 0x02, 0x03, 0x04, 0x05, 0x06, 0x07,
   0x08, 0x09, 0xFF, 0xFF, 0xFF, 0xFF, 0xFF, 0xFF,
   0xFF, 0x0A, 0x0B, 0x0C, 0x0D, 0x0E, 0x0F, 0x10,
   0x11, 0xFF, 0x12, 0x13, 0xFF, 0x14, 0x15, 0xFF,
   0x16, 0x17, 0x18, 0x19, 0x1A, 0xFF, 0x1B, 0x1C,
   0x1D, 0x1E, 0x1F, 0xFF, 0xFF, 0xFF, 0xFF, 0xFF,
   0xFF, 0x0A, 0x0B, 0x0C, 0x0D, 0x0E, 0x0F, 0x10,
   0x11, 0xFF, 0x12, 0x13, 0xFF, 0x14, 0x15, 0xFF,
   0x16, 0x17, 0x18, 0x19, 0x1A, 0xFF, 0x1B, 0x1C,
   0x1D, 0x1E, 0x1F, 0xFF, 0xFF, 0xFF, 0xFF, 0xFF,
   0xFF, 0xFF, 0xFF, 0xFF, 0xFF, 0xFF, 0xFF, 0xFF,
   0xFF, 0xFF, 0xFF, 0xFF, 0xFF, 0xFF, 0xFF, 0xFF,
   0xFF, 0xFF, 0xFF, 0xFF, 0xFF, 0xFF, 0xFF, 0xFF,
   0xFF, 0xFF, 0xFF, 0xFF, 0xFF, 0xFF, 0xFF, 0xFF,
   0xFF, 0xFF, 0xFF, 0xFF, 0xFF, 0xFF, 0xFF, 0xFF,
   0xFF, 0xFF, 0xFF, 0xFF, 0xFF, 0xFF, 0xFF, 0xFF,
   0xFF, 0xFF, 0xFF, 0xFF, 0xFF, 0xFF, 0xFF, 0xFF,
   0xFF, 0xFF, 0xFF, 0xFF, 0xFF, 0xFF, 0xFF, 0xFF,
   0xFF, 0xFF, 0xFF, 0xFF, 0xFF, 0xFF, 0xFF, 0xFF,
   0xFF, 0xFF, 0xFF, 0xFF, 0xFF, 0xFF, 0xFF, 0xFF,
   0xFF, 0xFF, 0xFF, 0xFF, 0xFF, 0xFF, 0xFF, 0xFF,
   0xFF, 0xFF, 0xFF, 0xFF, 0xFF, 0xFF, 0xFF, 0xFF,
   0xFF, 0xFF, 0xFF, 0xFF, 0xFF, 0xFF, 0xFF, 0xFF,
   0xFF, 0xFF, 0xFF, 0xFF, 0xFF, 0xFF, 0xFF, 0xFF,
   0xFF, 0xFF, 0xFF, 0xFF, 0xFF, 0xFF, 0xFF, 0xFF,
   0xFF, 0xFF, 0xFF, 0xFF, 0xFF, 0xFF, 0xFF, 0xFF]

/-- Modelled from the spec: `typeid/constants.py` is not in the source tree
(only its import sites are); the spec fixes the encoded suffix length at 26
characters throughout, so `SUFFIX_LEN = 26`. -/
def SUFFIX_LEN : Nat := 26

/-- Character of the alphabet at a 5-bit value (Python `ALPHABET[i]`; every
index supplied by `encode` is `< 32`, so the default is unreachable). -/
def alpha (i : Nat) : Char := ALPHABET.getD i ' '

/-- Decode-table lookup at a byte (Python `TABLE[b]`; every byte of a UTF-8
encoding is `< 256`, so the default is unreachable). -/
def tbl (b : Nat) : Nat := TABLE.getD b 0xFF

/-- UTF-8 encoding of one code point, as byte values: the model of what
CPython's `str.encode("utf-8")` does per character. -/
def utf8EncodeChar (c : Char) : List Nat :=
  let v := c.toNat
  if v < 0x80 then [v]
  else if v < 0x800 then [0xC0 ||| (v >>> 6), 0x80 ||| (v &&& 0x3F)]
  else if v < 0x10000 then
    [0xE0 ||| (v >>> 12), 0x80 ||| ((v >>> 6) &&& 0x3F), 0x80 ||| (v &&& 0x3F)]
  else
    [0xF0 ||| (v >>> 18), 0x80 ||| ((v >>> 12) &&& 0x3F),
     0x80 ||| ((v >>> 6) &&& 0x3F), 0x80 ||| (v &&& 0x3F)]

/-- `bytes(s, encoding="utf-8")` as a list of byte values. -/
def utf8Bytes (s : List Char) : List Nat :=
  s.flatMap utf8EncodeChar

/-- `typeid/base32.py: encode(src)` — packs 16 byte values into 26 alphabet
characters; raises (`none`) when the input is not exactly 16 bytes long. -/
def encode (src : List Nat) : Option (List Char) :=
  if src.length = 16 then
    let b (i : Nat) : Nat := src.getD i 0
    some
      [alpha ((b 0 &&& 224) >>> 5),
       alpha (b 0 &&& 31),
       alpha ((b 1 &&& 248) >>> 3),
       alpha (((b 1 &&& 7) <<< 2) ||| ((b 2 &&& 192) >>> 6)),
       alpha ((b 2 &&& 62) >>> 1),
       alpha (((b 2 &&& 1) <<< 4) ||| ((b 3 &&& 240) >>> 4)),
       alpha (((b 3 &&& 15) <<< 1) ||| ((b 4 &&& 128) >>> 7)),
       alpha ((b 4 &&& 124) >>> 2),
       alpha (((b 4 &&& 3) <<< 3) ||| ((b 5 &&& 224) >>> 5)),
       alpha (b 5 &&& 31),
       alpha ((b 6 &&& 248) >>> 3),
       alpha (((b 6 &&& 7) <<< 2) ||| ((b 7 &&& 192) >>> 6)),
       alpha ((b 7 &&& 62) >>> 1),
       alpha (((b 7 &&& 1) <<< 4) ||| ((b 8 &&& 240) >>> 4)),
       alpha (((b 8 &&& 15) <<< 1) ||| ((b 9 &&& 128) >>> 7)),
       alpha ((b 9 &&& 124) >>> 2),
       alpha (((b 9 &&& 3) <<< 3) ||| ((b 10 &&& 224) >>> 5)),
       alpha (b 10 &&& 31),
       alpha ((b 11 &&& 248) >>> 3),
       alpha (((b 11 &&& 7) <<< 2) ||| ((b 12 &&& 192) >>> 6)),
       alpha ((b 12 &&& 62) >>> 1),
       alpha (((b 12 &&& 1) <<< 4) ||| ((b 13 &&& 240) >>> 4)),
       alpha (((b 13 &&& 15) <<< 1) ||| ((b 14 &&& 128) >>> 7)),
       alpha ((b 14 &&& 124) >>> 2),
       alpha (((b 14 &&& 3) <<< 3) ||| ((b 15 &&& 224) >>> 5)),
       alpha (b 15 &&& 31)]
  else none

/-- Byte-level body of `typeid/base32.py: decode` (everything after
`v = bytes(s, encoding="utf-8")`).  Any Python exception is `none`: an
`IndexError` when fewer than 26 bytes are present, and the explicit
`RuntimeError`, which the source raises only when *all* 26 table lookups
are the invalid sentinel (the guard chains its comparisons with `and`).
Bytes beyond the 26th are ignored, exactly as in the source. -/
def decodeCore (v : List Nat) : Option (List Nat) :=
  if v.length < 26 then none
  else
    let t (i : Nat) : Nat := tbl (v.getD i 0)
    if t 0 = 0xFF ∧ t 1 = 0xFF ∧ t 2 = 0xFF ∧ t 3 = 0xFF ∧ t 4 = 0xFF ∧
       t 5 = 0xFF ∧ t 6 = 0xFF ∧ t 7 = 0xFF ∧ t 8 = 0xFF ∧ t 9 = 0xFF ∧
       t 10 = 0xFF ∧ t 11 = 0xFF ∧ t 12 = 0xFF ∧ t 13 = 0xFF ∧ t 14 = 0xFF ∧
       t 15 = 0xFF ∧ t 16 = 0xFF ∧ t 17 = 0xFF ∧ t 18 = 0xFF ∧ t 19 = 0xFF ∧
       t 20 = 0xFF ∧ t 21 = 0xFF ∧ t 22 = 0xFF ∧ t 23 = 0xFF ∧ t 24 = 0xFF ∧
       t 25 = 0xFF then none
    else
      some
        [(t 0 <<< 5) ||| t 1,
         (t 2 <<< 3) ||| (t 3 >>> 2),
         ((t 3 &&& 3) <<< 6) ||| (t 4 <<< 1) ||| (t 5 >>> 4),
         ((t 5 &&& 15) <<< 4) ||| (t 6 >>> 1),
         ((t 6 &&& 1) <<< 7) ||| (t 7 <<< 2) ||| (t 8 >>> 3),
         ((t 8 &&& 7) <<< 5) ||| t 9,
         (t 10 <<< 3) ||| (t 11 >>> 2),
         ((t 11 &&& 3) <<< 6) ||| (t 12 <<< 1) ||| (t 13 >>> 4),
         ((t 13 &&& 15) <<< 4) ||| (t 14 >>> 1),
         ((t 14 &&& 1) <<< 7) ||| (t 15 <<< 2) ||| (t 16 >>> 3),
         ((t 16 &&& 7) <<< 5) ||| t 17,
         (t 18 <<< 3) ||| (t 19 >>> 2),
         ((t 19 &&& 3) <<< 6) ||| (t 20 <<< 1) ||| (t 21 >>> 4),
         ((t 21 &&& 15) <<< 4) ||| (t 22 >>> 1),
         ((t 22 &&& 1) <<< 7) ||| (t 23 <<< 2) ||| (t 24 >>> 3),
         ((t 24 &&& 7) <<< 5) ||| t 25]

/-- `typeid/base32.py: decode(s)` — converts the string to UTF-8 bytes and
unpacks 26 of them into 16 byte values. -/
def decode (s : List Char) : Option (List Nat) :=
  decodeCore (utf8Bytes s)

/-- 5-bit value of a character under the decode table (the character's byte
under UTF-8 for the ASCII characters this is applied to). -/
def charVal (c : Char) : Nat := tbl c.toNat

example : decode ("00041061050r3gg28a1c60t3gf".toList) =
    some [0, 1, 2, 3, 4, 5, 6, 7, 8, 9, 10, 11, 12, 13, 14, 15] := by decide

example : (encode [0, 1, 2, 3, 4, 5, 6, 7, 8, 9, 10, 11, 12, 13, 14, 15]) =
    some ("00041061050r3gg28a1c60t3gf".toList) := by decide

/-!
## Bit-arithmetic infrastructure

Every mask / shift / or combination the codec uses is rewritten into plain
`/ % * +` arithmetic, after which `omega` settles each packing equation.
-/

theorem orOrP (k a b : Nat) (h1 : a % 2 ^ k = 0) (h2 : b < 2 ^ k) : a ||| b = a + b := by
  obtain ⟨c, rfl⟩ := Nat.dvd_of_mod_eq_zero h1
  exact (Nat.mul_add_lt_is_or h2 c).symm

theorem orOr2 (a b : Nat) (h1 : a % 2 = 0) (h2 : b < 2) : a ||| b = a + b := orOrP 1 a b h1 h2

theorem orOr4 (a b : Nat) (h1 : a % 4 = 0) (h2 : b < 4) : a ||| b = a + b := orOrP 2 a b h1 h2

theorem orOr8 (a b : Nat) (h1 : a % 8 = 0) (h2 : b < 8) : a ||| b = a + b := orOrP 3 a b h1 h2

theorem orOr16 (a b : Nat) (h1 : a % 16 = 0) (h2 : b < 16) : a ||| b = a + b :=
  orOrP 4 a b h1 h2

theorem orOr32 (a b : Nat) (h1 : a % 32 = 0) (h2 : b < 32) : a ||| b = a + b :=
  orOrP 5 a b h1 h2

theorem orOr64 (a b : Nat) (h1 : a % 64 = 0) (h2 : b < 64) : a ||| b = a + b :=
  orOrP 6 a b h1 h2

theorem orOr128 (a b : Nat) (h1 : a % 128 = 0) (h2 : b < 128) : a ||| b = a + b :=
  orOrP 7 a b h1 h2

set_option maxRecDepth 2000 in
theorem A224 : ∀ x < 256, x &&& 224 = x / 32 * 32 := by decide

set_option maxRecDepth 2000 in
theorem A248 : ∀ x < 256, x &&& 248 = x / 8 * 8 := by decide

set_option maxRecDepth 2000 in
theorem A192 : ∀ x < 256, x &&& 192 = x / 64 * 64 := by decide

set_option maxRecDepth 2000 in
theorem A240 : ∀ x < 256, x &&& 240 = x / 16 * 16 := by decide

set_option maxRecDepth 2000 in
theorem A128 : ∀ x < 256, x &&& 128 = x / 128 * 128 := by decide

set_option maxRecDepth 2000 in
theorem A62 : ∀ x < 256, x &&& 62 = x % 64 / 2 * 2 := by decide

set_option maxRecDepth 2000 in
theorem A124 : ∀ x < 256, x &&& 124 = x % 128 / 4 * 4 := by decide

theorem A31 (x : Nat) : x &&& 31 = x % 32 := Nat.and_pow_two_sub_one_eq_mod x 5

theorem A15 (x : Nat) : x &&& 15 = x % 16 := Nat.and_pow_two_sub_one_eq_mod x 4

theorem A7 (x : Nat) : x &&& 7 = x % 8 := Nat.and_pow_two_sub_one_eq_mod x 3

theorem A3 (x : Nat) : x &&& 3 = x % 4 := Nat.and_pow_two_sub_one_eq_mod x 2

theorem A1 (x : Nat) : x &&& 1 = x % 2 := Nat.and_pow_two_sub_one_eq_mod x 1

/-!
## Character-level facts, each checked by exhausting the 32-entry alphabet
-/

set_option maxRecDepth 4000 in
theorem utf8_alpha : ∀ e < 32, utf8EncodeChar (alpha e) = [(alpha e).toNat] := by decide

set_option maxRecDepth 4000 in
theorem tbl_alpha : ∀ e < 32, tbl (alpha e).toNat = e := by decide

theorem utf8_mem : ∀ c ∈ ALPHABET, utf8EncodeChar c = [c.toNat] := by decide

theorem charVal_lt : ∀ c ∈ ALPHABET, charVal c < 32 := by decide

theorem alpha_charVal : ∀ c ∈ ALPHABET, alpha (charVal c) = c := by decide

theorem alpha_mem : ∀ e < 32, alpha e ∈ ALPHABET := by decide

theorem alpha_eq_of (c : Char) (e : Nat) (hc : c ∈ ALPHABET) (he : e = charVal c) :
    alpha e = c := by
  rw [he]
  exact alpha_charVal c hc

/-!
## Explicit forms of `encode` and `decodeCore` on fully destructured lists
-/

theorem encode_explicit (x0 x1 x2 x3 x4 x5 x6 x7 x8 x9 x10 x11 x12 x13 x14 x15 : Nat) :
    encode [x0, x1, x2, x3, x4, x5, x6, x7, x8, x9, x10, x11, x12, x13, x14, x15] =
    some
      [alpha ((x0 &&& 224) >>> 5),
       alpha (x0 &&& 31),
       alpha ((x1 &&& 248) >>> 3),
       alpha (((x1 &&& 7) <<< 2) ||| ((x2 &&& 192) >>> 6)),
       alpha ((x2 &&& 62) >>> 1),
       alpha (((x2 &&& 1) <<< 4) ||| ((x3 &&& 240) >>> 4)),
       alpha (((x3 &&& 15) <<< 1) ||| ((x4 &&& 128) >>> 7)),
       alpha ((x4 &&& 124) >>> 2),
       alpha (((x4 &&& 3) <<< 3) ||| ((x5 &&& 224) >>> 5)),
       alpha (x5 &&& 31),
       alpha ((x6 &&& 248) >>> 3),
       alpha (((x6 &&& 7) <<< 2) ||| ((x7 &&& 192) >>> 6)),
       alpha ((x7 &&& 62) >>> 1),
       alpha (((x7 &&& 1) <<< 4) ||| ((x8 &&& 240) >>> 4)),
       alpha (((x8 &&& 15) <<< 1) ||| ((x9 &&& 128) >>> 7)),
       alpha ((x9 &&& 124) >>> 2),
       alpha (((x9 &&& 3) <<< 3) ||| ((x10 &&& 224) >>> 5)),
       alpha (x10 &&& 31),
       alpha ((x11 &&& 248) >>> 3),
       alpha (((x11 &&& 7) <<< 2) ||| ((x12 &&& 192) >>> 6)),
       alpha ((x12 &&& 62) >>> 1),
       alpha (((x12 &&& 1) <<< 4) ||| ((x13 &&& 240) >>> 4)),
       alpha (((x13 &&& 15) <<< 1) ||| ((x14 &&& 128) >>> 7)),
       alpha ((x14 &&& 124) >>> 2),
       alpha (((x14 &&& 3) <<< 3) ||| ((x15 &&& 224) >>> 5)),
       alpha (x15 &&& 31)] := rfl

theorem decodeCore_explicit
    (b0 b1 b2 b3 b4 b5 b6 b7 b8 b9 b10 b11 b12 b13 b14 b15 b16 b17 b18 b19 b20 b21 b22
      b23 b24 b25 : Nat) (rest : List Nat) (hg : tbl b0 ≠ 255) :
    decodeCore (b0 :: b1 :: b2 :: b3 :: b4 :: b5 :: b6 :: b7 :: b8 :: b9 :: b10 :: b11 ::
      b12 :: b13 :: b14 :: b15 :: b16 :: b17 :: b18 :: b19 :: b20 :: b21 :: b22 :: b23 ::
      b24 :: b25 :: rest) =
    some
      [(tbl b0 <<< 5) ||| tbl b1,
       (tbl b2 <<< 3) ||| (tbl b3 >>> 2),
       ((tbl b3 &&& 3) <<< 6) ||| (tbl b4 <<< 1) ||| (tbl b5 >>> 4),
       ((tbl b5 &&& 15) <<< 4) ||| (tbl b6 >>> 1),
       ((tbl b6 &&& 1) <<< 7) ||| (tbl b7 <<< 2) ||| (tbl b8 >>> 3),
       ((tbl b8 &&& 7) <<< 5) ||| tbl b9,
       (tbl b10 <<< 3) ||| (tbl b11 >>> 2),
       ((tbl b11 &&& 3) <<< 6) ||| (tbl b12 <<< 1) ||| (tbl b13 >>> 4),
       ((tbl b13 &&& 15) <<< 4) ||| (tbl b14 >>> 1),
       ((tbl b14 &&& 1) <<< 7) ||| (tbl b15 <<< 2) ||| (tbl b16 >>> 3),
       ((tbl b16 &&& 7) <<< 5) ||| tbl b17,
       (tbl b18 <<< 3) ||| (tbl b19 >>> 2),
       ((tbl b19 &&& 3) <<< 6) ||| (tbl b20 <<< 1) ||| (tbl b21 >>> 4),
       ((tbl b21 &&& 15) <<< 4) ||| (tbl b22 >>> 1),
       ((tbl b22 &&& 1) <<< 7) ||| (tbl b23 <<< 2) ||| (tbl b24 >>> 3),
       ((tbl b24 &&& 7) <<< 5) ||| tbl b25] := by
  unfold decodeCore
  rw [if_neg (by simp)]
  simp only [List.getD_cons_succ, List.getD_cons_zero]
  rw [if_neg (fun h => hg h.1)]

/-!
## Bounds on the 5-bit groups produced by `encode`
-/

theorem eb1 (x : Nat) : (x &&& 224) >>> 5 < 32 := by
  have h := @Nat.and_le_right x 224
  rw [Nat.shiftRight_eq_div_pow]
  omega

theorem eb1' (x : Nat) : (x &&& 224) >>> 5 < 8 := by
  have h := @Nat.and_le_right x 224
  rw [Nat.shiftRight_eq_div_pow]
  omega

theorem eb2 (x : Nat) : x &&& 31 < 32 := by
  have h := @Nat.and_le_right x 31
  omega

theorem eb3 (x : Nat) : (x &&& 248) >>> 3 < 32 := by
  have h := @Nat.and_le_right x 248
  rw [Nat.shiftRight_eq_div_pow]
  omega

theorem eb4 (x y : Nat) : ((x &&& 7) <<< 2) ||| ((y &&& 192) >>> 6) < 32 := by
  refine @Nat.or_lt_two_pow _ _ 5 ?_ ?_
  · have h := @Nat.and_le_right x 7
    rw [Nat.shiftLeft_eq]
    omega
  · have h := @Nat.and_le_right y 192
    rw [Nat.shiftRight_eq_div_pow]
    omega

theorem eb5 (x : Nat) : (x &&& 62) >>> 1 < 32 := by
  have h := @Nat.and_le_right x 62
  rw [Nat.shiftRight_eq_div_pow]
  omega

theorem eb6 (x y : Nat) : ((x &&& 1) <<< 4) ||| ((y &&& 240) >>> 4) < 32 := by
  refine @Nat.or_lt_two_pow _ _ 5 ?_ ?_
  · have h := @Nat.and_le_right x 1
    rw [Nat.shiftLeft_eq]
    omega
  · have h := @Nat.and_le_right y 240
    rw [Nat.shiftRight_eq_div_pow]
    omega

theorem eb7 (x y : Nat) : ((x &&& 15) <<< 1) ||| ((y &&& 128) >>> 7) < 32 := by
  refine @Nat.or_lt_two_pow _ _ 5 ?_ ?_
  · have h := @Nat.and_le_right x 15
    rw [Nat.shiftLeft_eq]
    omega
  · have h := @Nat.and_le_right y 128
    rw [Nat.shiftRight_eq_div_pow]
    omega

theorem eb8 (x : Nat) : (x &&& 124) >>> 2 < 32 := by
  have h := @Nat.and_le_right x 124
  rw [Nat.shiftRight_eq_div_pow]
  omega

theorem eb9 (x y : Nat) : ((x &&& 3) <<< 3) ||| ((y &&& 224) >>> 5) < 32 := by
  refine @Nat.or_lt_two_pow _ _ 5 ?_ ?_
  · have h := @Nat.and_le_right x 3
    rw [Nat.shiftLeft_eq]
    omega
  · have h := @Nat.and_le_right y 224
    rw [Nat.shiftRight_eq_div_pow]
    omega

/-- Byte-side round-trip: decoding the encoding of any 16-byte value gives
the value back. -/
theorem decode_encode (v : List Nat) (hlen : v.length = 16) (hmem : ∀ x ∈ v, x < 256) :
    (encode v).bind decode = some v := by
  obtain _ | ⟨x0, v⟩ := v
  case nil => simp at hlen
  obtain _ | ⟨x1, v⟩ := v
  case nil => simp at hlen
  obtain _ | ⟨x2, v⟩ := v
  case nil => simp at hlen
  obtain _ | ⟨x3, v⟩ := v
  case nil => simp at hlen
  obtain _ | ⟨x4, v⟩ := v
  case nil => simp at hlen
  obtain _ | ⟨x5, v⟩ := v
  case nil => simp at hlen
  obtain _ | ⟨x6, v⟩ := v
  case nil => simp at hlen
  obtain _ | ⟨x7, v⟩ := v
  case nil => simp at hlen
  obtain _ | ⟨x8, v⟩ := v
  case nil => simp at hlen
  obtain _ | ⟨x9, v⟩ := v
  case nil => simp at hlen
  obtain _ | ⟨x10, v⟩ := v
  case nil => simp at hlen
  obtain _ | ⟨x11, v⟩ := v
  case nil => simp at hlen
  obtain _ | ⟨x12, v⟩ := v
  case nil => simp at hlen
  obtain _ | ⟨x13, v⟩ := v
  case nil => simp at hlen
  obtain _ | ⟨x14, v⟩ := v
  case nil => simp at hlen
  obtain _ | ⟨x15, v⟩ := v
  case nil => simp at hlen
  obtain _ | ⟨x16, v⟩ := v
  case cons =>
    simp only [List.length_cons] at hlen
    omega
  have h0 : x0 < 256 := hmem x0 (by simp)
  have h1 : x1 < 256 := hmem x1 (by simp)
  have h2 : x2 < 256 := hmem x2 (by simp)
  have h3 : x3 < 256 := hmem x3 (by simp)
  have h4 : x4 < 256 := hmem x4 (by simp)
  have h5 : x5 < 256 := hmem x5 (by simp)
  have h6 : x6 < 256 := hmem x6 (by simp)
  have h7 : x7 < 256 := hmem x7 (by simp)
  have h8 : x8 < 256 := hmem x8 (by simp)
  have h9 : x9 < 256 := hmem x9 (by simp)
  have h10 : x10 < 256 := hmem x10 (by simp)
  have h11 : x11 < 256 := hmem x11 (by simp)
  have h12 : x12 < 256 := hmem x12 (by simp)
  have h13 : x13 < 256 := hmem x13 (by simp)
  have h14 : x14 < 256 := hmem x14 (by simp)
  have h15 : x15 < 256 := hmem x15 (by simp)
  rw [encode_explicit, Option.some_bind]
  unfold decode
  simp only [utf8Bytes, List.flatMap_cons, List.flatMap_nil, List.append_nil]
  rw [utf8_alpha _ (eb1 x0), utf8_alpha _ (eb2 x0), utf8_alpha _ (eb3 x1),
    utf8_alpha _ (eb4 x1 x2), utf8_alpha _ (eb5 x2), utf8_alpha _ (eb6 x2 x3),
    utf8_alpha _ (eb7 x3 x4), utf8_alpha _ (eb8 x4), utf8_alpha _ (eb9 x4 x5),
    utf8_alpha _ (eb2 x5), utf8_alpha _ (eb3 x6), utf8_alpha _ (eb4 x6 x7),
    utf8_alpha _ (eb5 x7), utf8_alpha _ (eb6 x7 x8), utf8_alpha _ (eb7 x8 x9),
    utf8_alpha _ (eb8 x9), utf8_alpha _ (eb9 x9 x10), utf8_alpha _ (eb2 x10),
    utf8_alpha _ (eb3 x11), utf8_alpha _ (eb4 x11 x12), utf8_alpha _ (eb5 x12),
    utf8_alpha _ (eb6 x12 x13), utf8_alpha _ (eb7 x13 x14), utf8_alpha _ (eb8 x14),
    utf8_alpha _ (eb9 x14 x15), utf8_alpha _ (eb2 x15)]
  simp only [List.singleton_append]
  rw [decodeCore_explicit]
  · rw [tbl_alpha _ (eb1 x0), tbl_alpha _ (eb2 x0), tbl_alpha _ (eb3 x1),
      tbl_alpha _ (eb4 x1 x2), tbl_alpha _ (eb5 x2), tbl_alpha _ (eb6 x2 x3),
      tbl_alpha _ (eb7 x3 x4), tbl_alpha _ (eb8 x4), tbl_alpha _ (eb9 x4 x5),
      tbl_alpha _ (eb2 x5), tbl_alpha _ (eb3 x6), tbl_alpha _ (eb4 x6 x7),
      tbl_alpha _ (eb5 x7), tbl_alpha _ (eb6 x7 x8), tbl_alpha _ (eb7 x8 x9),
      tbl_alpha _ (eb8 x9), tbl_alpha _ (eb9 x9 x10), tbl_alpha _ (eb2 x10),
      tbl_alpha _ (eb3 x11), tbl_alpha _ (eb4 x11 x12), tbl_alpha _ (eb5 x12),
      tbl_alpha _ (eb6 x12 x13), tbl_alpha _ (eb7 x13 x14), tbl_alpha _ (eb8 x14),
      tbl_alpha _ (eb9 x14 x15), tbl_alpha _ (eb2 x15)]
    simp only [Option.some.injEq, List.cons.injEq, and_true]
    simp (disch := omega) only [A224, A248, A192, A240, A128, A62, A124, A31, A15, A7, A3,
      A1, Nat.shiftLeft_eq, Nat.shiftRight_eq_div_pow, orOr2, orOr4, orOr8, orOr16, orOr32,
      orOr64, orOr128]
    omega
  · rw [tbl_alpha _ (eb1 x0)]
    have := eb1 x0
    omega

set_option maxHeartbeats 2000000 in
/-- String-side round-trip: encoding the decoding of any well-formed
26-character suffix reproduces the suffix exactly. -/
theorem encode_decode (s : List Char) (hlen : s.length = 26)
    (hmem : ∀ c ∈ s, c ∈ ALPHABET) (h7 : charVal (s.headD ' ') ≤ 7) :
    (decode s).bind encode = some s := by
  obtain _ | ⟨c0, s⟩ := s
  case nil => simp at hlen
  obtain _ | ⟨c1, s⟩ := s
  case nil => simp at hlen
  obtain _ | ⟨c2, s⟩ := s
  case nil => simp at hlen
  obtain _ | ⟨c3, s⟩ := s
  case nil => simp at hlen
  obtain _ | ⟨c4, s⟩ := s
  case nil => simp at hlen
  obtain _ | ⟨c5, s⟩ := s
  case nil => simp at hlen
  obtain _ | ⟨c6, s⟩ := s
  case nil => simp at hlen
  obtain _ | ⟨c7, s⟩ := s
  case nil => simp at hlen
  obtain _ | ⟨c8, s⟩ := s
  case nil => simp at hlen
  obtain _ | ⟨c9, s⟩ := s
  case nil => simp at hlen
  obtain _ | ⟨c10, s⟩ := s
  case nil => simp at hlen
  obtain _ | ⟨c11, s⟩ := s
  case nil => simp at hlen
  obtain _ | ⟨c12, s⟩ := s
  case nil => simp at hlen
  obtain _ | ⟨c13, s⟩ := s
  case nil => simp at hlen
  obtain _ | ⟨c14, s⟩ := s
  case nil => simp at hlen
  obtain _ | ⟨c15, s⟩ := s
  case nil => simp at hlen
  obtain _ | ⟨c16, s⟩ := s
  case nil => simp at hlen
  obtain _ | ⟨c17, s⟩ := s
  case nil => simp at hlen
  obtain _ | ⟨c18, s⟩ := s
  case nil => simp at hlen
  obtain _ | ⟨c19, s⟩ := s
  case nil => simp at hlen
  obtain _ | ⟨c20, s⟩ := s
  case nil => simp at hlen
  obtain _ | ⟨c21, s⟩ := s
  case nil => simp at hlen
  obtain _ | ⟨c22, s⟩ := s
  case nil => simp at hlen
  obtain _ | ⟨c23, s⟩ := s
  case nil => simp at hlen
  obtain _ | ⟨c24, s⟩ := s
  case nil => simp at hlen
  obtain _ | ⟨c25, s⟩ := s
  case nil => simp at hlen
  obtain _ | ⟨c26, s⟩ := s
  case cons =>
    simp only [List.length_cons] at hlen
    omega
  have hm0 : c0 ∈ ALPHABET := hmem c0 (by simp)
  have hm1 : c1 ∈ ALPHABET := hmem c1 (by simp)
  have hm2 : c2 ∈ ALPHABET := hmem c2 (by simp)
  have hm3 : c3 ∈ ALPHABET := hmem c3 (by simp)
  have hm4 : c4 ∈ ALPHABET := hmem c4 (by simp)
  have hm5 : c5 ∈ ALPHABET := hmem c5 (by simp)
  have hm6 : c6 ∈ ALPHABET := hmem c6 (by simp)
  have hm7 : c7 ∈ ALPHABET := hmem c7 (by simp)
  have hm8 : c8 ∈ ALPHABET := hmem c8 (by simp)
  have hm9 : c9 ∈ ALPHABET := hmem c9 (by simp)
  have hm10 : c10 ∈ ALPHABET := hmem c10 (by simp)
  have hm11 : c11 ∈ ALPHABET := hmem c11 (by simp)
  have hm12 : c12 ∈ ALPHABET := hmem c12 (by simp)
  have hm13 : c13 ∈ ALPHABET := hmem c13 (by simp)
  have hm14 : c14 ∈ ALPHABET := hmem c14 (by simp)
  have hm15 : c15 ∈ ALPHABET := hmem c15 (by simp)
  have hm16 : c16 ∈ ALPHABET := hmem c16 (by simp)
  have hm17 : c17 ∈ ALPHABET := hmem c17 (by simp)
  have hm18 : c18 ∈ ALPHABET := hmem c18 (by simp)
  have hm19 : c19 ∈ ALPHABET := hmem c19 (by simp)
  have hm20 : c20 ∈ ALPHABET := hmem c20 (by simp)
  have hm21 : c21 ∈ ALPHABET := hmem c21 (by simp)
  have hm22 : c22 ∈ ALPHABET := hmem c22 (by simp)
  have hm23 : c23 ∈ ALPHABET := hmem c23 (by simp)
  have hm24 : c24 ∈ ALPHABET := hmem c24 (by simp)
  have hm25 : c25 ∈ ALPHABET := hmem c25 (by simp)
  have ht0 : tbl c0.toNat < 32 := charVal_lt c0 hm0
  have ht1 : tbl c1.toNat < 32 := charVal_lt c1 hm1
  have ht2 : tbl c2.toNat < 32 := charVal_lt c2 hm2
  have ht3 : tbl c3.toNat < 32 := charVal_lt c3 hm3
  have ht4 : tbl c4.toNat < 32 := charVal_lt c4 hm4
  have ht5 : tbl c5.toNat < 32 := charVal_lt c5 hm5
  have ht6 : tbl c6.toNat < 32 := charVal_lt c6 hm6
  have ht7 : tbl c7.toNat < 32 := charVal_lt c7 hm7
  have ht8 : tbl c8.toNat < 32 := charVal_lt c8 hm8
  have ht9 : tbl c9.toNat < 32 := charVal_lt c9 hm9
  have ht10 : tbl c10.toNat < 32 := charVal_lt c10 hm10
  have ht11 : tbl c11.toNat < 32 := charVal_lt c11 hm11
  have ht12 : tbl c12.toNat < 32 := charVal_lt c12 hm12
  have ht13 : tbl c13.toNat < 32 := charVal_lt c13 hm13
  have ht14 : tbl c14.toNat < 32 := charVal_lt c14 hm14
  have ht15 : tbl c15.toNat < 32 := charVal_lt c15 hm15
  have ht16 : tbl c16.toNat < 32 := charVal_lt c16 hm16
  have ht17 : tbl c17.toNat < 32 := charVal_lt c17 hm17
  have ht18 : tbl c18.toNat < 32 := charVal_lt c18 hm18
  have ht19 : tbl c19.toNat < 32 := charVal_lt c19 hm19
  have ht20 : tbl c20.toNat < 32 := charVal_lt c20 hm20
  have ht21 : tbl c21.toNat < 32 := charVal_lt c21 hm21
  have ht22 : tbl c22.toNat < 32 := charVal_lt c22 hm22
  have ht23 : tbl c23.toNat < 32 := charVal_lt c23 hm23
  have ht24 : tbl c24.toNat < 32 := charVal_lt c24 hm24
  have ht25 : tbl c25.toNat < 32 := charVal_lt c25 hm25
  have h7' : tbl c0.toNat ≤ 7 := h7
  unfold decode
  simp only [utf8Bytes, List.flatMap_cons, List.flatMap_nil, List.append_nil]
  rw [utf8_mem c0 hm0, utf8_mem c1 hm1, utf8_mem c2 hm2, utf8_mem c3 hm3,
    utf8_mem c4 hm4, utf8_mem c5 hm5, utf8_mem c6 hm6, utf8_mem c7 hm7,
    utf8_mem c8 hm8, utf8_mem c9 hm9, utf8_mem c10 hm10, utf8_mem c11 hm11,
    utf8_mem c12 hm12, utf8_mem c13 hm13, utf8_mem c14 hm14, utf8_mem c15 hm15,
    utf8_mem c16 hm16, utf8_mem c17 hm17, utf8_mem c18 hm18, utf8_mem c19 hm19,
    utf8_mem c20 hm20, utf8_mem c21 hm21, utf8_mem c22 hm22, utf8_mem c23 hm23,
    utf8_mem c24 hm24, utf8_mem c25 hm25]
  simp only [List.singleton_append]
  rw [decodeCore_explicit]
  · rw [Option.some_bind, encode_explicit]
    simp only [Option.some.injEq, List.cons.injEq, and_true]
    refine ⟨?_, ?_, ?_, ?_, ?_, ?_, ?_, ?_, ?_, ?_, ?_, ?_, ?_, ?_, ?_, ?_, ?_, ?_, ?_,
      ?_, ?_, ?_, ?_, ?_, ?_, ?_⟩
    · exact alpha_eq_of c0 _ hm0 (by
        simp (disch := omega) only [charVal, A224, A248, A192, A240, A128, A62, A124, A31,
          A15, A7, A3, A1, Nat.shiftLeft_eq, Nat.shiftRight_eq_div_pow, orOr2, orOr4,
          orOr8, orOr16, orOr32, orOr64, orOr128]
        omega)
    · exact alpha_eq_of c1 _ hm1 (by
        simp (disch := omega) only [charVal, A224, A248, A192, A240, A128, A62, A124, A31,
          A15, A7, A3, A1, Nat.shiftLeft_eq, Nat.shiftRight_eq_div_pow, orOr2, orOr4,
          orOr8, orOr16, orOr32, orOr64, orOr128]
        omega)
    · exact alpha_eq_of c2 _ hm2 (by
        simp (disch := omega) only [charVal, A224, A248, A192, A240, A128, A62, A124, A31,
          A15, A7, A3, A1, Nat.shiftLeft_eq, Nat.shiftRight_eq_div_pow, orOr2, orOr4,
          orOr8, orOr16, orOr32, orOr64, orOr128]
        omega)
    · exact alpha_eq_of c3 _ hm3 (by
        simp (disch := omega) only [charVal, A224, A248, A192, A240, A128, A62, A124, A31,
          A15, A7, A3, A1, Nat.shiftLeft_eq, Nat.shiftRight_eq_div_pow, orOr2, orOr4,
          orOr8, orOr16, orOr32, orOr64, orOr128]
        omega)
    · exact alpha_eq_of c4 _ hm4 (by
        simp (disch := omega) only [charVal, A224, A248, A192, A240, A128, A62, A124, A31,
          A15, A7, A3, A1, Nat.shiftLeft_eq, Nat.shiftRight_eq_div_pow, orOr2, orOr4,
          orOr8, orOr16, orOr32, orOr64, orOr128]
        omega)
    · exact alpha_eq_of c5 _ hm5 (by
        simp (disch := omega) only [charVal, A224, A248, A192, A240, A128, A62, A124, A31,
          A15, A7, A3, A1, Nat.shiftLeft_eq, Nat.shiftRight_eq_div_pow, orOr2, orOr4,
          orOr8, orOr16, orOr32, orOr64, orOr128]
        omega)
    · exact alpha_eq_of c6 _ hm6 (by
        simp (disch := omega) only [charVal, A224, A248, A192, A240, A128, A62, A124, A31,
          A15, A7, A3, A1, Nat.shiftLeft_eq, Nat.shiftRight_eq_div_pow, orOr2, orOr4,
          orOr8, orOr16, orOr32, orOr64, orOr128]
        omega)
    · exact alpha_eq_of c7 _ hm7 (by
        simp (disch := omega) only [charVal, A224, A248, A192, A240, A128, A62, A124, A31,
          A15, A7, A3, A1, Nat.shiftLeft_eq, Nat.shiftRight_eq_div_pow, orOr2, orOr4,
          orOr8, orOr16, orOr32, orOr64, orOr128]
        omega)
    · exact alpha_eq_of c8 _ hm8 (by
        simp (disch := omega) only [charVal, A224, A248, A192, A240, A128, A62, A124, A31,
          A15, A7, A3, A1, Nat.shiftLeft_eq, Nat.shiftRight_eq_div_pow, orOr2, orOr4,
          orOr8, orOr16, orOr32, orOr64, orOr128]
        omega)
    · exact alpha_eq_of c9 _ hm9 (by
        simp (disch := omega) only [charVal, A224, A248, A192, A240, A128, A62, A124, A31,
          A15, A7, A3, A1, Nat.shiftLeft_eq, Nat.shiftRight_eq_div_pow, orOr2, orOr4,
          orOr8, orOr16, orOr32, orOr64, orOr128]
        omega)
    · exact alpha_eq_of c10 _ hm10 (by
        simp (disch := omega) only [charVal, A224, A248, A192, A240, A128, A62, A124, A31,
          A15, A7, A3, A1, Nat.shiftLeft_eq, Nat.shiftRight_eq_div_pow, orOr2, orOr4,
          orOr8, orOr16, orOr32, orOr64, orOr128]
        omega)
    · exact alpha_eq_of c11 _ hm11 (by
        simp (disch := omega) only [charVal, A224, A248, A192, A240, A128, A62, A124, A31,
          A15, A7, A3, A1, Nat.shiftLeft_eq, Nat.shiftRight_eq_div_pow, orOr2, orOr4,
          orOr8, orOr16, orOr32, orOr64, orOr128]
        omega)
    · exact alpha_eq_of c12 _ hm12 (by
        simp (disch := omega) only [charVal, A224, A248, A192, A240, A128, A62, A124, A31,
          A15, A7, A3, A1, Nat.shiftLeft_eq, Nat.shiftRight_eq_div_pow, orOr2, orOr4,
          orOr8, orOr16, orOr32, orOr64, orOr128]
        omega)
    · exact alpha_eq_of c13 _ hm13 (by
        simp (disch := omega) only [charVal, A224, A248, A192, A240, A128, A62, A124, A31,
          A15, A7, A3, A1, Nat.shiftLeft_eq, Nat.shiftRight_eq_div_pow, orOr2, orOr4,
          orOr8, orOr16, orOr32, orOr64, orOr128]
        omega)
    · exact alpha_eq_of c14 _ hm14 (by
        simp (disch := omega) only [charVal, A224, A248, A192, A240, A128, A62, A124, A31,
          A15, A7, A3, A1, Nat.shiftLeft_eq, Nat.shiftRight_eq_div_pow, orOr2, orOr4,
          orOr8, orOr16, orOr32, orOr64, orOr128]
        omega)
    · exact alpha_eq_of c15 _ hm15 (by
        simp (disch := omega) only [charVal, A224, A248, A192, A240, A128, A62, A124, A31,
          A15, A7, A3, A1, Nat.shiftLeft_eq, Nat.shiftRight_eq_div_pow, orOr2, orOr4,
          orOr8, orOr16, orOr32, orOr64, orOr128]
        omega)
    · exact alpha_eq_of c16 _ hm16 (by
        simp (disch := omega) only [charVal, A224, A248, A192, A240, A128, A62, A124, A31,
          A15, A7, A3, A1, Nat.shiftLeft_eq, Nat.shiftRight_eq_div_pow, orOr2, orOr4,
          orOr8, orOr16, orOr32, orOr64, orOr128]
        omega)
    · exact alpha_eq_of c17 _ hm17 (by
        simp (disch := omega) only [charVal, A224, A248, A192, A240, A128, A62, A124, A31,
          A15, A7, A3, A1, Nat.shiftLeft_eq, Nat.shiftRight_eq_div_pow, orOr2, orOr4,
          orOr8, orOr16, orOr32, orOr64, orOr128]
        omega)
    · exact alpha_eq_of c18 _ hm18 (by
        simp (disch := omega) only [charVal, A224, A248, A192, A240, A128, A62, A124, A31,
          A15, A7, A3, A1, Nat.shiftLeft_eq, Nat.shiftRight_eq_div_pow, orOr2, orOr4,
          orOr8, orOr16, orOr32, orOr64, orOr128]
        omega)
    · exact alpha_eq_of c19 _ hm19 (by
        simp (disch := omega) only [charVal, A224, A248, A192, A240, A128, A62, A124, A31,
          A15, A7, A3, A1, Nat.shiftLeft_eq, Nat.shiftRight_eq_div_pow, orOr2, orOr4,
          orOr8, orOr16, orOr32, orOr64, orOr128]
        omega)
    · exact alpha_eq_of c20 _ hm20 (by
        simp (disch := omega) only [charVal, A224, A248, A192, A240, A128, A62, A124, A31,
          A15, A7, A3, A1, Nat.shiftLeft_eq, Nat.shiftRight_eq_div_pow, orOr2, orOr4,
          orOr8, orOr16, orOr32, orOr64, orOr128]
        omega)
    · exact alpha_eq_of c21 _ hm21 (by
        simp (disch := omega) only [charVal, A224, A248, A192, A240, A128, A62, A124, A31,
          A15, A7, A3, A1, Nat.shiftLeft_eq, Nat.shiftRight_eq_div_pow, orOr2, orOr4,
          orOr8, orOr16, orOr32, orOr64, orOr128]
        omega)
    · exact alpha_eq_of c22 _ hm22 (by
        simp (disch := omega) only [charVal, A224, A248, A192, A240, A128, A62, A124, A31,
          A15, A7, A3, A1, Nat.shiftLeft_eq, Nat.shiftRight_eq_div_pow, orOr2, orOr4,
          orOr8, orOr16, orOr32, orOr64, orOr128]
        omega)
    · exact alpha_eq_of c23 _ hm23 (by
        simp (disch := omega) only [charVal, A224, A248, A192, A240, A128, A62, A124, A31,
          A15, A7, A3, A1, Nat.shiftLeft_eq, Nat.shiftRight_eq_div_pow, orOr2, orOr4,
          orOr8, orOr16, orOr32, orOr64, orOr128]
        omega)
    · exact alpha_eq_of c24 _ hm24 (by
        simp (disch := omega) only [charVal, A224, A248, A192, A240, A128, A62, A124, A31,
          A15, A7, A3, A1, Nat.shiftLeft_eq, Nat.shiftRight_eq_div_pow, orOr2, orOr4,
          orOr8, orOr16, orOr32, orOr64, orOr128]
        omega)
    · exact alpha_eq_of c25 _ hm25 (by
        simp (disch := omega) only [charVal, A224, A248, A192, A240, A128, A62, A124, A31,
          A15, A7, A3, A1, Nat.shiftLeft_eq, Nat.shiftRight_eq_div_pow, orOr2, orOr4,
          orOr8, orOr16, orOr32, orOr64, orOr128]
        omega)
  · omega

/-- C1: Base32 round-trip: for every list of 16 byte values `v`,
`decode (encode v) = v`; and for every 26-character string whose characters
are all in the alphabet and whose first character's 5-bit value is at most
7, `encode (decode s) = s` exactly. -/
theorem C1_base32_roundtrip :
    (∀ v : List Nat, v.length = 16 → (∀ x ∈ v, x < 256) →
      (encode v).bind decode = some v) ∧
    (∀ s : List Char, s.length = 26 → (∀ c ∈ s, c ∈ ALPHABET) →
      charVal (s.headD ' ') ≤ 7 → (decode s).bind encode = some s) :=
  ⟨decode_encode, encode_decode⟩

/-- Witness for C1 at concrete inputs. -/
theorem C1_base32_roundtrip_witness :
    (encode [255, 254, 3, 7, 9, 0, 16, 32, 64, 128, 200, 211, 250, 77, 101, 42]).bind
      decode = some [255, 254, 3, 7, 9, 0, 16, 32, 64, 128, 200, 211, 250, 77, 101, 42] ∧
    (decode ("7zzzzzzzzzzzzzzzzzzzzzzzzz".toList)).bind encode =
      some ("7zzzzzzzzzzzzzzzzzzzzzzzzz".toList) :=
  ⟨C1_base32_roundtrip.1 _ (by decide) (by decide),
   C1_base32_roundtrip.2 _ (by decide) (by decide) (by decide)⟩

/-- C2: the claim says `decode` raises on every input that is not exactly 26
characters and on every 26-character input with at least one character
outside the alphabet.  The source's validity guard chains its 26 comparisons
with `and`, so it fires only when *every* character is invalid, and no
length check rejects longer inputs: a 26-character string whose first
character `u` is outside the alphabet decodes "successfully" to garbage
(8160 is not even a byte), and a 27-character string decodes successfully
with the extra character ignored. -/
theorem C2_decode_no_unit_failure :
    ("u0000000000000000000000000".toList.length = 26 ∧ 'u' ∉ ALPHABET ∧
      decode ("u0000000000000000000000000".toList) =
        some [8160, 0, 0, 0, 0, 0, 0, 0, 0, 0, 0, 0, 0, 0, 0, 0]) ∧
    ("000000000000000000000000000".toList.length = 27 ∧
      decode ("000000000000000000000000000".toList) =
        some [0, 0, 0, 0, 0, 0, 0, 0, 0, 0, 0, 0, 0, 0, 0, 0]) := by decide

/-!
## Validation layer: `typeid/validation.py`

Python's `str.isdigit`, `str.islower` and `str.strip` are Unicode-aware;
they are modelled here by their ASCII restrictions, which agree with Python
on every string whose characters are ASCII (all strings these predicates
can accept in context are alphabet strings, which are ASCII).
-/

/-- ASCII decimal digit. -/
def isAsciiDigit (c : Char) : Bool := '0' ≤ c && c ≤ '9'

/-- ASCII lowercase letter. -/
def isAsciiLower (c : Char) : Bool := 'a' ≤ c && c ≤ 'z'

/-- ASCII uppercase letter. -/
def isAsciiUpper (c : Char) : Bool := 'A' ≤ c && c ≤ 'Z'

/-- Python `s.isdigit()` (ASCII restriction): non-empty and all digits. -/
def sIsdigit (s : List Char) : Bool := !s.isEmpty && s.all isAsciiDigit

/-- Python `s.islower()` (ASCII restriction): at least one cased character
and no uppercase character. -/
def sIslower (s : List Char) : Bool :=
  (s.any fun c => isAsciiLower c || isAsciiUpper c) && (s.all fun c => ! isAsciiUpper c)

/-- The characters Python's `str.strip()` removes: CPython's full Unicode
whitespace set (`Py_UNICODE_ISSPACE`): the ASCII whitespace and separator
controls, NEL, NBSP, Ogham space mark, the U+2000–U+200A spaces, line and
paragraph separators, narrow NBSP, medium mathematical space, and the
ideographic space. -/
def isSpace (c : Char) : Bool :=
  c = ' ' || c = '\t' || c = '\n' || c = '\x0d' || c = '\x0b' || c = '\x0c' ||
  c = '\x1c' || c = '\x1d' || c = '\x1e' || c = '\x1f' ||
  c = '\u0085' || c = '\u00A0' || c = '\u1680' ||
  ('\u2000' ≤ c && c ≤ '\u200A') ||
  c = '\u2028' || c = '\u2029' || c = '\u202F' || c = '\u205F' || c = '\u3000'

/-- `typeid/validation.py: validate_suffix(suffix)` — `true` means the
checks pass, `false` means `SuffixValidationException` is raised.  The
condition list mirrors the source's `or`-chain; the final conjunct models
the `try: base32.decode(suffix) except: raise`. -/
def validate_suffix (s : List Char) : Bool :=
  if s.length ≠ SUFFIX_LEN ∨ s = [] ∨ ' ' ∈ s ∨
      (sIsdigit s = false ∧ sIslower s = false) ∨
      (∃ c ∈ s, c ∉ ALPHABET) ∨ s.headD ' ' > '7' then
    false
  else (decode s).isSome

theorem space_not_mem : ' ' ∉ ALPHABET := by decide

theorem le_seven_iff : ∀ c ∈ ALPHABET, (¬ c > '7' ↔ charVal c ≤ 7) := by decide

theorem alpha_digit_or_lower : ∀ c ∈ ALPHABET, isAsciiDigit c ∨ isAsciiLower c := by decide

theorem alpha_not_upper : ∀ c ∈ ALPHABET, ¬ isAsciiUpper c := by decide

theorem digit_or_lower (s : List Char) (hne : s ≠ [])
    (hmem : ∀ c ∈ s, c ∈ ALPHABET) : sIsdigit s = true ∨ sIslower s = true := by
  by_cases hd : ∀ c ∈ s, isAsciiDigit c
  · left
    simp only [sIsdigit, Bool.and_eq_true, List.all_eq_true, Bool.not_eq_true']
    exact ⟨by simpa using hne, hd⟩
  · right
    push_neg at hd
    obtain ⟨c, hc, hcd⟩ := hd
    simp only [sIslower, Bool.and_eq_true, List.any_eq_true, List.all_eq_true]
    refine ⟨⟨c, hc, ?_⟩, fun d hds => ?_⟩
    · have := alpha_digit_or_lower c (hmem c hc)
      simp only [Bool.or_eq_true]
      left
      cases this with
      | inl h => exact absurd h (by simpa using hcd)
      | inr h => exact h
    · have := alpha_not_upper d (hmem d hds)
      simpa using this

theorem validate_suffix_iff (s : List Char) :
    validate_suffix s = true ↔
      (s.length = 26 ∧ (∀ c ∈ s, c ∈ ALPHABET) ∧ charVal (s.headD ' ') ≤ 7 ∧
        (decode s).isSome = true) := by
  unfold validate_suffix
  split
  case isTrue h =>
    simp only [Bool.false_eq_true, false_iff]
    rintro ⟨hlen, hmem, h7, hdec⟩
    have hne : s ≠ [] := by
      intro he
      rw [he] at hlen
      simp at hlen
    have hhead : s.headD ' ' ∈ s := by
      obtain _ | ⟨c, t⟩ := s
      · exact absurd rfl hne
      · simp
    rcases h with h | h | h | h | h | h
    · exact h hlen
    · exact hne h
    · exact space_not_mem (hmem ' ' h)
    · rcases digit_or_lower s hne hmem with hd | hl
      · rw [h.1] at hd
        exact absurd hd (by simp)
      · rw [h.2] at hl
        exact absurd hl (by simp)
    · obtain ⟨c, hc, hnc⟩ := h
      exact hnc (hmem c hc)
    · exact ((le_seven_iff _ (hmem _ hhead)).2 h7) h
  case isFalse h =>
    push_neg at h
    obtain ⟨hlen, hne, hsp, hdl, hmem, h7⟩ := h
    have hmem' : ∀ c ∈ s, c ∈ ALPHABET := hmem
    have hhead : s.headD ' ' ∈ s := by
      obtain _ | ⟨c, t⟩ := s
      · exact absurd rfl hne
      · simp
    constructor
    · intro hdec
      exact ⟨hlen, hmem', (le_seven_iff _ (hmem' _ hhead)).1 (by simpa using h7), hdec⟩
    · intro hc
      exact hc.2.2.2

/-- C4: `validate_suffix` accepts exactly the 26-character alphabet strings
whose first character's 5-bit value is at most 7 and which decode
successfully through the codec. -/
theorem C4_validate_suffix_iff (s : List Char) :
    validate_suffix s = true ↔
      (s.length = 26 ∧ (∀ c ∈ s, c ∈ ALPHABET) ∧ charVal (s.headD ' ') ≤ 7 ∧
        (decode s).isSome = true) :=
  validate_suffix_iff s

/-!
## Prefix validation: `typeid/validation.py: validate_prefix`

The source checks `re.match("^([a-z]([a-z_]{0,61}[a-z])?)?$", prefix)`.
The inner group `[a-z]([a-z_]{0,61}[a-z])?` matches a string iff it is
non-empty, at most 63 characters, its first and last characters are
lowercase ASCII letters and its interior characters are lowercase letters
or underscores; the outer `?` also admits the empty string, and Python's
`$` also matches just before a single trailing newline.
-/

/-- The language of the group `([a-z]([a-z_]{0,61}[a-z])?)?`. -/
def regexCoreMatch (s : List Char) : Bool :=
  s.isEmpty ||
    (isAsciiLower (s.headD '_') && isAsciiLower (s.getLastD '_') &&
     s.length ≤ 63 && (s.tail.dropLast.all fun c => isAsciiLower c || c = '_'))

/-- `typeid/validation.py: validate_prefix(prefix)` — `true` means the
regex matches (no exception), `false` means `PrefixValidationException`.
The second disjunct models `$` accepting one trailing newline. -/
def validate_pre (s : List Char) : Bool :=
  regexCoreMatch s || (s.getLastD 'x' = '\n' && regexCoreMatch s.dropLast)

/-- The prefix grammar exactly as the claim states it: empty, or lowercase
ASCII letters optionally separated by *single* internal underscores (never
two adjacent underscores, never leading or trailing), length at most 63. -/
def claimPrefixGrammar (s : List Char) : Bool :=
  s.isEmpty ||
    (s.length ≤ 63 && (s.all fun c => isAsciiLower c || c = '_') &&
     isAsciiLower (s.headD '_') && isAsciiLower (s.getLastD '_') &&
     ((s.zip s.tail).all fun p => !(p.1 = '_' && p.2 = '_')))

/-- The amended grammar: empty, or letters-and-underscores starting and
ending with a letter (adjacent underscores allowed), length at most 63. -/
def PrefixShape (w : List Char) : Prop :=
  w = [] ∨ (w ≠ [] ∧ w.length ≤ 63 ∧ (∀ c ∈ w, isAsciiLower c = true ∨ c = '_') ∧
    isAsciiLower (w.headD '_') = true ∧ isAsciiLower (w.getLastD '_') = true)

theorem regexCore_iff (w : List Char) : regexCoreMatch w = true ↔ PrefixShape w := by
  obtain _ | ⟨c, cs⟩ := w
  · simp [regexCoreMatch, PrefixShape]
  · simp only [regexCoreMatch, List.isEmpty_cons, Bool.false_or, Bool.and_eq_true,
      Bool.or_eq_true, decide_eq_true_eq, List.all_eq_true, PrefixShape, List.length_cons,
      reduceCtorEq, ne_eq, not_false_eq_true, true_and, false_or]
    constructor
    · rintro ⟨⟨⟨hh, hl⟩, hlen⟩, hmid⟩
      refine ⟨by omega, fun x hx => ?_, hh, hl⟩
      obtain _ | ⟨d, ds⟩ := cs
      · simp only [List.mem_singleton] at hx
        subst hx
        left
        simpa using hh
      · have hne : d :: ds ≠ [] := by simp
        have hsplit := List.dropLast_append_getLast hne
        rcases List.mem_cons.1 hx with rfl | hx2
        · left
          simpa using hh
        · rw [← hsplit] at hx2
          rcases List.mem_append.1 hx2 with hmidm | hlast
          · exact hmid x (by simpa using hmidm)
          · simp only [List.mem_singleton] at hlast
            subst hlast
            left
            rw [List.getLastD_cons, List.getLastD_eq_getLast?,
              List.getLast?_eq_getLast _ hne] at hl
            simpa using hl
    · rintro ⟨hlen, hall, hh, hl⟩
      refine ⟨⟨⟨hh, hl⟩, by omega⟩, fun x hx => ?_⟩
      have hx' : x ∈ c :: cs := by
        have h1 : x ∈ (c :: cs).tail.dropLast := by simpa using hx
        exact List.mem_of_mem_tail (List.mem_of_mem_dropLast h1)
      rcases hall x hx' with h | h
      · simp [h]
      · simp [h]

theorem getLastD_concat (w : List Char) (a d : Char) : (w ++ [a]).getLastD d = a := by
  rw [List.getLastD_eq_getLast?, List.getLast?_concat]
  rfl

/-- C3, counterexample: the source's regex accepts `"a__b"` (adjacent
internal underscores), which the claim's grammar rejects. -/
theorem C3_counterexample :
    validate_pre ("a__b".toList) = true ∧ claimPrefixGrammar ("a__b".toList) = false := by
  decide

/-- C3, amended: `validate_pre` accepts exactly the strings of the claim's
grammar relaxed to allow adjacent internal underscores, plus any such
string with a single trailing newline appended (a Python `re` `$`
artifact). -/
theorem C3_validate_pre_amended (s : List Char) :
    validate_pre s = true ↔
      (PrefixShape s ∨ ∃ w, s = w ++ ['\n'] ∧ PrefixShape w) := by
  unfold validate_pre
  simp only [Bool.or_eq_true, Bool.and_eq_true, decide_eq_true_eq, regexCore_iff]
  constructor
  · rintro (h | ⟨hnl, hshape⟩)
    · exact Or.inl h
    · right
      have hne : s ≠ [] := by
        intro he
        subst he
        exact absurd hnl (by decide)
      rw [List.getLastD_eq_getLast?, List.getLast?_eq_getLast _ hne,
        Option.getD_some] at hnl
      refine ⟨s.dropLast, ?_, hshape⟩
      conv_lhs => rw [← List.dropLast_append_getLast hne]
      rw [hnl]
  · rintro (h | ⟨w, rfl, hshape⟩)
    · exact Or.inl h
    · right
      refine ⟨?_, ?_⟩
      · rw [getLastD_concat]
      · rw [List.dropLast_concat]
        exact hshape

/-!
## String splitting and identifier construction: `typeid/typeid.py`
-/

/-- Python `s.rsplit("_", 1)`: `none` when there is no underscore (the
one-element result list), otherwise the parts before and after the *last*
underscore. -/
def rsplitLast (s : List Char) : Option (List Char × List Char) :=
  if '_' ∈ s then
    some (((s.reverse.dropWhile fun c => c != '_').tail).reverse,
          (s.reverse.takeWhile fun c => c != '_').reverse)
  else none

/-- `typeid/typeid.py: get_prefix_and_suffix(string)` — `none` models
`InvalidTypeIDStringException`; the source raises when the only part (no
underscore) or either split part is empty after `.strip()`. -/
def get_prefix_and_suffix (s : List Char) : Option (Option (List Char) × List Char) :=
  match rsplitLast s with
  | none => if s.all isSpace then none else some (none, s)
  | some (p, suf) => if p.all isSpace || suf.all isSpace then none else some (some p, suf)

/-- A TypeID value: the stored `_prefix` (`pre` here, `none` when absent)
and `_suffix` fields of `typeid/typeid.py: TypeID`. -/
structure TypeIDRec where
  pre : Option (List Char)
  suffix : List Char
deriving DecidableEq

/-- The source line `suffix = _convert_uuid_to_b32(uuid6.uuid7()) if not
suffix else suffix`: `fresh` stands for the Base32 encoding of the UUIDv7
the source would generate, passed as an oracle because generation is
nondeterministic; it is used exactly when Python's `not suffix` is true,
i.e. when `suffix` is `None` or the empty string. -/
def effectiveSuffix (suffix : Option (List Char)) (fresh : List Char) : List Char :=
  match suffix with
  | none => fresh
  | some t => if t = [] then fresh else t

/-- `TypeID.__init__(prefix, suffix)` — validates the effective suffix,
then the prefix when one is given.  `none` models a validation exception. -/
def typeidInit (p : Option (List Char)) (suffix : Option (List Char))
    (fresh : List Char) : Option TypeIDRec :=
  if validate_suffix (effectiveSuffix suffix fresh) then
    match p with
    | none => some ⟨none, effectiveSuffix suffix fresh⟩
    | some pw =>
      if validate_pre pw then some ⟨some pw, effectiveSuffix suffix fresh⟩ else none
  else none

/-- `TypeID.from_string(string)` (with the same generation oracle, which is
never consulted because a split suffix is never empty). -/
def from_string (s : List Char) (fresh : List Char) : Option TypeIDRec :=
  match get_prefix_and_suffix s with
  | none => none
  | some (p, suf) => typeidInit p (some suf) fresh

/-- Python `uuid.UUID.bytes`: the 16 bytes of the 128-bit value, big-endian. -/
def uuidBytes (v : Nat) : List Nat :=
  [(v >>> 120) &&& 255, (v >>> 112) &&& 255, (v >>> 104) &&& 255, (v >>> 96) &&& 255,
   (v >>> 88) &&& 255, (v >>> 80) &&& 255, (v >>> 72) &&& 255, (v >>> 64) &&& 255,
   (v >>> 56) &&& 255, (v >>> 48) &&& 255, (v >>> 40) &&& 255, (v >>> 32) &&& 255,
   (v >>> 24) &&& 255, (v >>> 16) &&& 255, (v >>> 8) &&& 255, v &&& 255]

/-- Python `int.from_bytes(bytes, byteorder="big")`. -/
def bytesToInt (l : List Nat) : Nat := l.foldl (fun acc b => acc * 256 + b) 0

/-- Modelled from the uuid6 library (external dependency):
`uuid6.UUID(int=n, version=7)` overwrites the RFC 4122 variant bits and the
version nibble (`int &= ~(0xC000 << 48); int |= 0x8000 << 48;
int &= ~(0xF000 << 64); int |= version << 76`).  Python's `~mask` on a
value below `2^128` coincides with XOR against `2^128 - 1`. -/
def uuidForceV7 (n : Nat) : Nat :=
  (((n &&& ((2 ^ 128 - 1) ^^^ (0xC000 <<< 48))) ||| (0x8000 <<< 48)) &&&
    ((2 ^ 128 - 1) ^^^ (0xF000 <<< 64))) ||| (7 <<< 76)

/-- Modelled from the uuid6 library: `uuid6.UUID(int=n, version=7)` raises
`ValueError` unless `0 <= n < 2^128`. -/
def uuid6FromInt (n : Nat) : Option Nat :=
  if n < 2 ^ 128 then some (uuidForceV7 n) else none

/-- `typeid/typeid.py: _convert_b32_to_uuid` composed with the `uuid`
property: decode the suffix, build the big-endian integer, construct
`uuid6.UUID(int=..., version=7)`.  `none` models a propagated exception. -/
def uuid_of (t : TypeIDRec) : Option Nat :=
  (decode t.suffix).bind fun bytes => uuid6FromInt (bytesToInt bytes)

/-- `TypeID.from_uuid(suffix, prefix)`: encode the UUID's bytes and build
the identifier through `__init__`. -/
def from_uuid (v : Nat) (p : Option (List Char)) (fresh : List Char) : Option TypeIDRec :=
  match encode (uuidBytes v) with
  | none => none
  | some cs => typeidInit p (some cs) fresh

/-!
## Split characterisation
-/

theorem takeWhile_app_stop (q : Char → Bool) (A B : List Char) (x : Char)
    (hA : ∀ a ∈ A, q a = true) (hx : q x = false) :
    (A ++ x :: B).takeWhile q = A := by
  induction A with
  | nil => simp [List.takeWhile_cons, hx]
  | cons a A ih =>
    simp only [List.cons_append, List.takeWhile_cons, hA a (by simp), if_true,
      List.cons.injEq, true_and]
    exact ih fun b hb => hA b (by simp [hb])

theorem dropWhile_app_stop (q : Char → Bool) (A B : List Char) (x : Char)
    (hA : ∀ a ∈ A, q a = true) (hx : q x = false) :
    (A ++ x :: B).dropWhile q = x :: B := by
  induction A with
  | nil => simp [List.dropWhile_cons, hx]
  | cons a A ih =>
    simp only [List.cons_append, List.dropWhile_cons, hA a (by simp), if_true]
    exact ih fun b hb => hA b (by simp [hb])

theorem rsplit_no_underscore (s : List Char) (h : '_' ∉ s) : rsplitLast s = none :=
  if_neg h

theorem rsplit_concat (p suf : List Char) (h : '_' ∉ suf) :
    rsplitLast (p ++ '_' :: suf) = some (p, suf) := by
  unfold rsplitLast
  rw [if_pos (by simp)]
  have hA : ∀ a ∈ suf.reverse, (a != '_') = true := by
    intro a ha
    rw [List.mem_reverse] at ha
    simp only [bne_iff_ne, ne_eq]
    rintro rfl
    exact h ha
  have hrev : (p ++ '_' :: suf).reverse = suf.reverse ++ '_' :: p.reverse := by
    rw [List.reverse_append, List.reverse_cons, List.append_assoc]
    simp
  rw [hrev, takeWhile_app_stop _ _ _ _ hA (by simp), dropWhile_app_stop _ _ _ _ hA (by simp)]
  simp

theorem gps_no_underscore (s : List Char) (h : '_' ∉ s) :
    get_prefix_and_suffix s = if s.all isSpace then none else some (none, s) := by
  unfold get_prefix_and_suffix
  rw [rsplit_no_underscore s h]

theorem gps_concat (p suf : List Char) (h : '_' ∉ suf) :
    get_prefix_and_suffix (p ++ '_' :: suf) =
      if p.all isSpace || suf.all isSpace then none else some (some p, suf) := by
  unfold get_prefix_and_suffix
  rw [rsplit_concat p suf h]

/-- C5, counterexample: for the input `" _x"` the claim says the split
takes everything before the last underscore (the one-space string) as the
prefix and `"x"` as the suffix; the source instead raises
`InvalidTypeIDStringException`, because it treats a whitespace-only side
(`.strip() == ""`) like an empty one. -/
theorem C5_counterexample :
    get_prefix_and_suffix (" _x".toList) = none ∧
    get_prefix_and_suffix (" _x".toList) ≠ some (some (" ".toList), "x".toList) := by
  decide

/-- C5, amended: `get_prefix_and_suffix` splits on the last underscore;
with no underscore present the whole string becomes the suffix with an
absent prefix, and it fails when the only part, or either split side, is
empty *or consists only of whitespace*. -/
theorem C5_split_amended :
    (∀ s : List Char, '_' ∉ s →
      get_prefix_and_suffix s = if s.all isSpace then none else some (none, s)) ∧
    (∀ p suf : List Char, '_' ∉ suf →
      get_prefix_and_suffix (p ++ '_' :: suf) =
        if p.all isSpace || suf.all isSpace then none else some (some p, suf)) :=
  ⟨gps_no_underscore, gps_concat⟩

/-- Witness for C5 at the claim's own example: `"double_prefix_"` followed
by a valid suffix parses to prefix `"double_prefix"` and that suffix. -/
theorem C5_split_amended_witness :
    '_' ∉ "00000000000000000000000000".toList ∧
    get_prefix_and_suffix
        ("double_prefix".toList ++ '_' :: "00000000000000000000000000".toList) =
      some (some ("double_prefix".toList), "00000000000000000000000000".toList) := by
  refine ⟨by decide, ?_⟩
  rw [C5_split_amended.2 _ _ (by decide)]
  decide

/-!
## Every encoded 16-byte value is a valid suffix
-/

theorem A255 (x : Nat) : x &&& 255 = x % 256 := Nat.and_pow_two_sub_one_eq_mod x 8

theorem and255_lt (y : Nat) : y &&& 255 < 256 := by
  have h := @Nat.and_le_right y 255
  omega

theorem uuidBytes_lt (v : Nat) : ∀ x ∈ uuidBytes v, x < 256 := by
  intro x hx
  simp only [uuidBytes, List.mem_cons, List.not_mem_nil, or_false] at hx
  rcases hx with rfl | rfl | rfl | rfl | rfl | rfl | rfl | rfl | rfl | rfl | rfl | rfl |
    rfl | rfl | rfl | rfl
  all_goals exact and255_lt _

theorem bytesToInt_uuidBytes (v : Nat) (h : v < 2 ^ 128) : bytesToInt (uuidBytes v) = v := by
  simp only [bytesToInt, uuidBytes, List.foldl_cons, List.foldl_nil, A255,
    Nat.shiftRight_eq_div_pow]
  rw [show 0 * 256 + v / 2 ^ 120 % 256 = v / 2 ^ 120 % 256 by omega,
    show v / 2 ^ 120 % 256 = v / 2 ^ 120 by omega,
    show v / 2 ^ 120 * 256 + v / 2 ^ 112 % 256 = v / 2 ^ 112 by omega,
    show v / 2 ^ 112 * 256 + v / 2 ^ 104 % 256 = v / 2 ^ 104 by omega,
    show v / 2 ^ 104 * 256 + v / 2 ^ 96 % 256 = v / 2 ^ 96 by omega,
    show v / 2 ^ 96 * 256 + v / 2 ^ 88 % 256 = v / 2 ^ 88 by omega,
    show v / 2 ^ 88 * 256 + v / 2 ^ 80 % 256 = v / 2 ^ 80 by omega,
    show v / 2 ^ 80 * 256 + v / 2 ^ 72 % 256 = v / 2 ^ 72 by omega,
    show v / 2 ^ 72 * 256 + v / 2 ^ 64 % 256 = v / 2 ^ 64 by omega,
    show v / 2 ^ 64 * 256 + v / 2 ^ 56 % 256 = v / 2 ^ 56 by omega,
    show v / 2 ^ 56 * 256 + v / 2 ^ 48 % 256 = v / 2 ^ 48 by omega,
    show v / 2 ^ 48 * 256 + v / 2 ^ 40 % 256 = v / 2 ^ 40 by omega,
    show v / 2 ^ 40 * 256 + v / 2 ^ 32 % 256 = v / 2 ^ 32 by omega,
    show v / 2 ^ 32 * 256 + v / 2 ^ 24 % 256 = v / 2 ^ 24 by omega,
    show v / 2 ^ 24 * 256 + v / 2 ^ 16 % 256 = v / 2 ^ 16 by omega,
    show v / 2 ^ 16 * 256 + v / 2 ^ 8 % 256 = v / 2 ^ 8 by omega,
    show v / 2 ^ 8 * 256 + v % 256 = v by omega]

theorem validate_encode (v : List Nat) (hlen : v.length = 16) (hmem : ∀ x ∈ v, x < 256) :
    ∃ cs, encode v = some cs ∧ validate_suffix cs = true := by
  obtain _ | ⟨x0, v⟩ := v
  case nil => simp at hlen
  obtain _ | ⟨x1, v⟩ := v
  case nil => simp at hlen
  obtain _ | ⟨x2, v⟩ := v
  case nil => simp at hlen
  obtain _ | ⟨x3, v⟩ := v
  case nil => simp at hlen
  obtain _ | ⟨x4, v⟩ := v
  case nil => simp at hlen
  obtain _ | ⟨x5, v⟩ := v
  case nil => simp at hlen
  obtain _ | ⟨x6, v⟩ := v
  case nil => simp at hlen
  obtain _ | ⟨x7, v⟩ := v
  case nil => simp at hlen
  obtain _ | ⟨x8, v⟩ := v
  case nil => simp at hlen
  obtain _ | ⟨x9, v⟩ := v
  case nil => simp at hlen
  obtain _ | ⟨x10, v⟩ := v
  case nil => simp at hlen
  obtain _ | ⟨x11, v⟩ := v
  case nil => simp at hlen
  obtain _ | ⟨x12, v⟩ := v
  case nil => simp at hlen
  obtain _ | ⟨x13, v⟩ := v
  case nil => simp at hlen
  obtain _ | ⟨x14, v⟩ := v
  case nil => simp at hlen
  obtain _ | ⟨x15, v⟩ := v
  case nil => simp at hlen
  obtain _ | ⟨x16, v⟩ := v
  case cons =>
    simp only [List.length_cons] at hlen
    omega
  refine ⟨_, encode_explicit x0 x1 x2 x3 x4 x5 x6 x7 x8 x9 x10 x11 x12 x13 x14 x15, ?_⟩
  refine (validate_suffix_iff _).2 ⟨by simp, ?_, ?_, ?_⟩
  · intro c hc
    simp only [List.mem_cons, List.not_mem_nil, or_false] at hc
    rcases hc with rfl | rfl | rfl | rfl | rfl | rfl | rfl | rfl | rfl | rfl | rfl | rfl |
      rfl | rfl | rfl | rfl | rfl | rfl | rfl | rfl | rfl | rfl | rfl | rfl | rfl | rfl
    · exact alpha_mem _ (eb1 x0)
    · exact alpha_mem _ (eb2 x0)
    · exact alpha_mem _ (eb3 x1)
    · exact alpha_mem _ (eb4 x1 x2)
    · exact alpha_mem _ (eb5 x2)
    · exact alpha_mem _ (eb6 x2 x3)
    · exact alpha_mem _ (eb7 x3 x4)
    · exact alpha_mem _ (eb8 x4)
    · exact alpha_mem _ (eb9 x4 x5)
    · exact alpha_mem _ (eb2 x5)
    · exact alpha_mem _ (eb3 x6)
    · exact alpha_mem _ (eb4 x6 x7)
    · exact alpha_mem _ (eb5 x7)
    · exact alpha_mem _ (eb6 x7 x8)
    · exact alpha_mem _ (eb7 x8 x9)
    · exact alpha_mem _ (eb8 x9)
    · exact alpha_mem _ (eb9 x9 x10)
    · exact alpha_mem _ (eb2 x10)
    · exact alpha_mem _ (eb3 x11)
    · exact alpha_mem _ (eb4 x11 x12)
    · exact alpha_mem _ (eb5 x12)
    · exact alpha_mem _ (eb6 x12 x13)
    · exact alpha_mem _ (eb7 x13 x14)
    · exact alpha_mem _ (eb8 x14)
    · exact alpha_mem _ (eb9 x14 x15)
    · exact alpha_mem _ (eb2 x15)
  · show charVal (alpha ((x0 &&& 224) >>> 5)) ≤ 7
    unfold charVal
    rw [tbl_alpha _ (eb1 x0)]
    have := eb1' x0
    omega
  · have hrt := decode_encode [x0, x1, x2, x3, x4, x5, x6, x7, x8, x9, x10, x11, x12, x13,
      x14, x15] rfl hmem
    rw [encode_explicit, Option.some_bind] at hrt
    rw [hrt]
    rfl

/-- C10: constructing a TypeID with an empty-string suffix argument is
treated exactly like an omitted suffix (the generation branch runs), and
the suffix validation applied to the generated suffix always passes:
the encoding of any 16-byte value is a valid suffix. -/
theorem C10_empty_suffix_generates :
    (∀ p fresh, typeidInit p (some []) fresh = typeidInit p none fresh) ∧
    (∀ v : List Nat, v.length = 16 → (∀ x ∈ v, x < 256) →
      ∃ cs, encode v = some cs ∧ validate_suffix cs = true) :=
  ⟨fun _ _ => rfl, validate_encode⟩

/-- Witness for C10 at concrete inputs. -/
theorem C10_empty_suffix_generates_witness :
    typeidInit (some ("user".toList)) (some []) ("00000000000000000000000000".toList) =
      typeidInit (some ("user".toList)) none ("00000000000000000000000000".toList) ∧
    ([0, 1, 2, 3, 4, 5, 6, 7, 8, 9, 10, 11, 12, 13, 14, 15] : List Nat).length = 16 ∧
    ∃ cs, encode [0, 1, 2, 3, 4, 5, 6, 7, 8, 9, 10, 11, 12, 13, 14, 15] = some cs ∧
      validate_suffix cs = true :=
  ⟨C10_empty_suffix_generates.1 _ _, by decide,
   C10_empty_suffix_generates.2 _ (by decide) (by decide)⟩

/-- C6, counterexample: `TypeID.from_uuid` at the nil UUID followed by the
`uuid` property does not return the nil value: `uuid6.UUID(int=..., version=7)`
forces the version nibble to 7 and the variant to RFC 4122, so the result
is `0x00000000000070008000000000000000`. -/
theorem C6_counterexample :
    (from_uuid 0 none []).bind uuid_of = some 528914269453437118709760 ∧
    (528914269453437118709760 : Nat) ≠ 0 := by decide

/-- C6, amended: for every 128-bit value `v` and valid-or-absent prefix,
`from_uuid` succeeds and the `uuid` property returns `v` with the version
nibble forced to 7 and the variant bits forced to RFC 4122
(`uuidForceV7 v`); it returns exactly `v` only when `v` already carries
those bits. -/
theorem C6_value_roundtrip_amended (v : Nat) (p : Option (List Char)) (fresh : List Char)
    (hv : v < 2 ^ 128) (hp : ∀ w, p = some w → validate_pre w = true) :
    ∃ t, from_uuid v p fresh = some t ∧ uuid_of t = some (uuidForceV7 v) := by
  obtain ⟨cs, hcs, hval⟩ :=
    validate_encode (uuidBytes v) (by simp [uuidBytes]) (uuidBytes_lt v)
  have hdec : decode cs = some (uuidBytes v) := by
    have hrt := decode_encode (uuidBytes v) (by simp [uuidBytes]) (uuidBytes_lt v)
    rw [hcs, Option.some_bind] at hrt
    exact hrt
  have hcs_ne : cs ≠ [] := by
    intro he
    rw [he] at hdec
    simp [decode, decodeCore, utf8Bytes] at hdec
  have heff : effectiveSuffix (some cs) fresh = cs := by
    show (if cs = [] then fresh else cs) = cs
    rw [if_neg hcs_ne]
  unfold from_uuid
  rw [hcs]
  cases p with
  | none =>
    refine ⟨⟨none, cs⟩, ?_, ?_⟩
    · show typeidInit none (some cs) fresh = some ⟨none, cs⟩
      unfold typeidInit
      rw [heff, if_pos hval]
    · show (decode cs).bind (fun bytes => uuid6FromInt (bytesToInt bytes)) = _
      rw [hdec, Option.some_bind, bytesToInt_uuidBytes v hv]
      unfold uuid6FromInt
      rw [if_pos hv]
  | some w =>
    refine ⟨⟨some w, cs⟩, ?_, ?_⟩
    · show typeidInit (some w) (some cs) fresh = some ⟨some w, cs⟩
      unfold typeidInit
      rw [heff, if_pos hval]
      show (if validate_pre w = true then some (⟨some w, cs⟩ : TypeIDRec) else none) =
        some ⟨some w, cs⟩
      rw [if_pos (hp w rfl)]
    · show (decode cs).bind (fun bytes => uuid6FromInt (bytesToInt bytes)) = _
      rw [hdec, Option.some_bind, bytesToInt_uuidBytes v hv]
      unfold uuid6FromInt
      rw [if_pos hv]

/-- Witness for C6's amended theorem at a concrete value and prefix. -/
theorem C6_value_roundtrip_amended_witness :
    (123456789 : Nat) < 2 ^ 128 ∧
    ∃ t, from_uuid 123456789 (some ("user".toList)) [] = some t ∧
      uuid_of t = some (uuidForceV7 123456789) :=
  ⟨by decide, C6_value_roundtrip_amended 123456789 (some ("user".toList)) [] (by decide)
    (fun w hw => by cases hw; decide)⟩

/-!
## The explain engine: `typeid/explain/engine.py`

`explain` is modelled with its default arguments (`schema_lookup=None`),
under which schema lookup and link rendering never run; `_render_links` is
modelled separately below.  A `ParsedTypeID`'s errors are modelled by their
`code` fields; the stored `uuid` string by the UUID's integer value; the
stored `created_at` datetime by its Unix epoch milliseconds.
-/

/-- `typeid/explain/engine.py: ParsedTypeID` (`model.py`). -/
structure ParsedRec where
  raw : List Char
  pre : Option (List Char)
  suffix : Option (List Char)
  valid : Bool
  errors : List (List Char)
  uuid : Option Nat
  createdAtMs : Option Nat
  sortable : Option Bool
deriving DecidableEq

/-- `typeid/explain/engine.py: _best_effort_split` — split on the last
underscore, `(none, none)` when there is no underscore or either side is
empty. -/
def bestEffortSplit (s : List Char) : Option (List Char) × Option (List Char) :=
  match rsplitLast s with
  | none => (none, none)
  | some (p, suf) => if p = [] ∨ suf = [] then (none, none) else (some p, some suf)

/-- `typeid/explain/engine.py: _uuid7_created_at` — the top 48 bits of the
128-bit value as Unix epoch milliseconds; `datetime.fromtimestamp` raises
(caught, giving `None`) only beyond the year-9999 range. -/
def uuid7CreatedAt (n : Nat) : Option Nat :=
  if n >>> 80 ≤ 253402300799999 then some (n >>> 80) else none

/-- `typeid/explain/engine.py: _parse_typeid`.  `from_string` only raises
`TypeIDException`-derived errors, so the failure branch carries the
`invalid_typeid` error code (the generic `parse_error` branch is
unreachable); on success `tid.uuid` is decoded (it cannot raise for a
validated identifier, so the `getD` default is unreachable), `created_at`
is derived from it, and `sortable` is the constant `True`. -/
def parse_typeid (s : List Char) (fresh : List Char) : ParsedRec :=
  match from_string s fresh with
  | none =>
    ⟨s, (bestEffortSplit s).1, (bestEffortSplit s).2, false, ["invalid_typeid".toList],
     none, none, none⟩
  | some tid =>
    ⟨s, some (tid.pre.getD []), some tid.suffix, true, [],
     some ((uuid_of tid).getD 0), uuid7CreatedAt ((uuid_of tid).getD 0), some true⟩

/-- `typeid/explain/model.py: Explanation`, restricted to the fields the
schema-less path populates. -/
structure ExplanationRec where
  id : List Char
  valid : Bool
  parsed : ParsedRec
  errors : List (List Char)
  warnings : List (List Char)
  links : List (List Char × List Char)
deriving DecidableEq

/-- `typeid/explain/engine.py: explain(id_str)` with `schema_lookup=None`
(the default): the schema and link steps are skipped. -/
def explain (s : List Char) (fresh : List Char) : ExplanationRec :=
  ⟨s, (parse_typeid s fresh).valid, parse_typeid s fresh, (parse_typeid s fresh).errors,
   [], []⟩

theorem parse_typeid_invalid (s fresh : List Char) (h : from_string s fresh = none) :
    parse_typeid s fresh =
      ⟨s, (bestEffortSplit s).1, (bestEffortSplit s).2, false,
       ["invalid_typeid".toList], none, none, none⟩ := by
  unfold parse_typeid
  rw [h]

/-- C7: on every input whose parse or validation fails, `explain` returns
(never raises — the embedding is a total function, mirroring the source's
catch-all handlers) an Explanation with `valid = false`, a non-empty error
list, and a ParsedTypeID carrying the best-effort split: the last-underscore
split when an underscore is present and both sides are non-empty, absent
prefix/suffix otherwise. -/
theorem C7_explain_total_on_invalid (s fresh : List Char)
    (h : from_string s fresh = none) :
    (explain s fresh).valid = false ∧
    (explain s fresh).errors ≠ [] ∧
    (explain s fresh).parsed.pre = (bestEffortSplit s).1 ∧
    (explain s fresh).parsed.suffix = (bestEffortSplit s).2 ∧
    ('_' ∉ s → bestEffortSplit s = (none, none)) ∧
    (∀ p suf : List Char, '_' ∉ suf →
      bestEffortSplit (p ++ '_' :: suf) =
        if p = [] ∨ suf = [] then (none, none) else (some p, some suf)) := by
  have hp := parse_typeid_invalid s fresh h
  refine ⟨?_, ?_, ?_, ?_, ?_, ?_⟩
  · show (parse_typeid s fresh).valid = false
    rw [hp]
  · show (parse_typeid s fresh).errors ≠ []
    rw [hp]
    simp
  · show (parse_typeid s fresh).pre = (bestEffortSplit s).1
    rw [hp]
  · show (parse_typeid s fresh).suffix = (bestEffortSplit s).2
    rw [hp]
  · intro hu
    unfold bestEffortSplit
    rw [rsplit_no_underscore s hu]
  · intro p suf hu
    unfold bestEffortSplit
    rw [rsplit_concat p suf hu]

/-- Witness for C7 at the spec's own example input `"not_a_typeid"`. -/
theorem C7_explain_total_on_invalid_witness :
    from_string ("not_a_typeid".toList) [] = none ∧
    (explain ("not_a_typeid".toList) []).valid = false ∧
    (explain ("not_a_typeid".toList) []).parsed.pre = some ("not_a".toList) ∧
    (explain ("not_a_typeid".toList) []).parsed.suffix = some ("typeid".toList) := by
  refine ⟨by decide, (C7_explain_total_on_invalid _ [] (by decide)).1, ?_, ?_⟩
  · rw [(C7_explain_total_on_invalid _ [] (by decide)).2.2.1]
    decide
  · rw [(C7_explain_total_on_invalid _ [] (by decide)).2.2.2.1]
    decide

/-- C8: the claim (and the repository's own tests) say explaining the
valid nil-suffix identifier yields no creation timestamp and
`sortable = false`; the engine instead derives `created_at` from epoch
millisecond 0 (1970-01-01T00:00:00Z) and hard-codes `sortable = True` —
there is no nil-value check in `_parse_typeid`. -/
theorem C8_nil_explain_eval :
    (explain ("x_00000000000000000000000000".toList) []).valid = true ∧
    (explain ("x_00000000000000000000000000".toList) []).parsed.createdAtMs = some 0 ∧
    (explain ("x_00000000000000000000000000".toList) []).parsed.sortable = some true := by
  decide

/-!
## Link rendering: `typeid/explain/engine.py: _render_links`

`str.format_map` with `_SafeFormatDict` is modelled by an explicit
template scanner: doubled braces are literal braces, `{name}` fields are
looked up in the mapping, a missing name splices the placeholder back
verbatim (`__missing__`), a lone `}` or an unclosed/brace-containing field
raises, and empty or all-digit field names are positional references,
which raise here because `format_map` passes no positional arguments.
Conversion and format-spec syntax (`!`, `:`) is not modelled: such
characters are taken as part of the field name.  `none` models a raised
exception, which `_render_links` turns into a warning.  The stdlib
renderings `str(uuid)` and `datetime.isoformat()` are abstracted as the
`uuidStr` and `iso` parameters.
-/

/-- A schema link-template value: a string or any non-string value. -/
inductive LinkVal where
  | str : List Char → LinkVal
  | other : LinkVal
deriving DecidableEq

/-- Scan a format field: the characters up to the closing `}` and the
remainder after it; `none` on an unclosed field or a `{` inside the field
(CPython admits one nested replacement field inside a format spec; such a
template raises unless the nested field resolves to a valid format spec —
no statement below quantifies over templates with nested fields). -/
def scanField : List Char → Option (List Char × List Char)
  | [] => none
  | c :: rest =>
    if c = '}' then some ([], rest)
    else if c = '{' then none
    else (scanField rest).map fun p => (c :: p.1, p.2)

/-- Characters that make a format field more than a plain mapping key:
`!` starts a conversion, `:` a format spec, `.` and `[` attribute or index
access. -/
def isFieldDelim (c : Char) : Bool :=
  c = '!' || c = ':' || c = '.' || c = '['

/-- Fuelled template scanner (any fuel above the template length behaves
identically; the wrapper `renderTemplate` supplies `length + 1`).

A field that is a plain mapping key (non-empty, not a positional
reference, no conversion/spec/accessor delimiter) is looked up; a missing
key splices the placeholder back verbatim (`_SafeFormatDict.__missing__`).
Empty and all-ASCII-digit names are positional references and raise
(`format_map` receives no positional arguments); CPython also counts
non-ASCII decimal digits as positional — field names are ASCII in every
statement below.  A field containing `!`, `:`, `.` or `[` is modelled as
raising: CPython raises for the templates such fields appear in below
(an invalid format spec applied to a string, an attribute access on the
string `__missing__` returns), though some such fields substitute instead
(a valid spec like `{id:>10}`, a conversion like `{a!r}`, an accessor
reaching a real attribute) — no statement below quantifies over them. -/
def renderT (lookup : List Char → Option (List Char)) :
    Nat → List Char → Option (List Char)
  | 0, _ => none
  | _ + 1, [] => some []
  | f + 1, c :: rest =>
    if c = '{' then
      match rest with
      | [] => none
      | d :: rest2 =>
        if d = '{' then (renderT lookup f rest2).map fun t => '{' :: t
        else
          match scanField rest with
          | none => none
          | some (name, rest3) =>
            if name.isEmpty || name.all isAsciiDigit || name.any isFieldDelim then none
            else
              match lookup name with
              | some v => (renderT lookup f rest3).map fun t => v ++ t
              | none => (renderT lookup f rest3).map fun t => '{' :: (name ++ '}' :: t)
    else if c = '}' then
      match rest with
      | [] => none
      | d :: rest2 =>
        if d = '}' then (renderT lookup f rest2).map fun t => '}' :: t else none
    else (renderT lookup f rest).map fun t => c :: t

/-- Python `tmpl.format_map(_SafeFormatDict(...))`. -/
def renderTemplate (lookup : List Char → Option (List Char)) (s : List Char) :
    Option (List Char) :=
  renderT lookup (s.length + 1) s

/-- The mapping `_render_links` builds: the five known placeholders. -/
def lookupMapping (ex : ExplanationRec) (uuidStr : Nat → List Char)
    (iso : Nat → List Char) (name : List Char) : Option (List Char) :=
  if name = "id".toList then some ex.id
  else if name = "prefix".toList then some (ex.parsed.pre.getD [])
  else if name = "suffix".toList then some (ex.parsed.suffix.getD [])
  else if name = "uuid".toList then
    some (match ex.parsed.uuid with | some u => uuidStr u | none => [])
  else if name = "created_at".toList then
    some (match ex.parsed.createdAtMs with | some ms => iso ms | none => [])
  else none

/-- `typeid/explain/engine.py: _render_links` — returns the rendered links
and the warnings; a non-string template value yields a warning and is
skipped, a failed rendering yields a warning and skips only that link. -/
def render_links (templates : List (List Char × LinkVal))
    (lookup : List Char → Option (List Char)) :
    List (List Char × List Char) × List (List Char) :=
  match templates with
  | [] => ([], [])
  | (nm, LinkVal.other) :: rest =>
    ((render_links rest lookup).1,
     ("non_string_template:".toList ++ nm) :: (render_links rest lookup).2)
  | (nm, LinkVal.str t) :: rest =>
    match renderTemplate lookup t with
    | some out => ((nm, out) :: (render_links rest lookup).1, (render_links rest lookup).2)
    | none =>
      ((render_links rest lookup).1,
       ("render_failed:".toList ++ nm) :: (render_links rest lookup).2)

theorem scanField_concat (name rest : List Char)
    (h : ∀ c ∈ name, c ≠ '{' ∧ c ≠ '}') :
    scanField (name ++ '}' :: rest) = some (name, rest) := by
  induction name with
  | nil => rfl
  | cons c cs ih =>
    have hc := h c (by simp)
    show scanField (c :: (cs ++ '}' :: rest)) = some (c :: cs, rest)
    unfold scanField
    rw [if_neg hc.2, if_neg hc.1, ih fun d hd => h d (by simp [hd])]
    rfl

theorem scanField_len (l : List Char) :
    ∀ name rest, scanField l = some (name, rest) →
      l.length = name.length + 1 + rest.length := by
  induction l with
  | nil =>
    intro name rest h
    simp [scanField] at h
  | cons c cs ih =>
    intro name rest h
    unfold scanField at h
    by_cases h1 : c = '}'
    · rw [if_pos h1] at h
      simp only [Option.some.injEq, Prod.mk.injEq] at h
      obtain ⟨h3, h4⟩ := h
      subst h3
      subst h4
      simp only [List.length_cons, List.length_nil]
      omega
    · rw [if_neg h1] at h
      by_cases h2 : c = '{'
      · rw [if_pos h2] at h
        simp at h
      · rw [if_neg h2] at h
        cases hs : scanField cs with
        | none =>
          rw [hs] at h
          simp at h
        | some p =>
          rw [hs] at h
          simp only [Option.map_some', Option.some.injEq, Prod.mk.injEq] at h
          obtain ⟨h3, h4⟩ := h
          subst h3
          subst h4
          have hlen := ih p.1 p.2 (by rw [hs])
          simp only [List.length_cons]
          omega

theorem renderT_succ (lookup : List Char → Option (List Char)) (f : Nat) (c : Char)
    (rest : List Char) :
    renderT lookup (f + 1) (c :: rest) =
      if c = '{' then
        match rest with
        | [] => none
        | d :: rest2 =>
          if d = '{' then (renderT lookup f rest2).map fun t => '{' :: t
          else
            match scanField rest with
            | none => none
            | some (name, rest3) =>
              if (name.isEmpty || name.all isAsciiDigit || name.any isFieldDelim) = true
              then none
              else
                match lookup name with
                | some v => (renderT lookup f rest3).map fun t => v ++ t
                | none => (renderT lookup f rest3).map fun t => '{' :: (name ++ '}' :: t)
      else if c = '}' then
        match rest with
        | [] => none
        | d :: rest2 =>
          if d = '}' then (renderT lookup f rest2).map fun t => '}' :: t else none
      else (renderT lookup f rest).map fun t => c :: t := rfl

theorem renderT_fuel (lookup : List Char → Option (List Char)) :
    ∀ f g s, s.length < f → s.length < g →
      renderT lookup f s = renderT lookup g s := by
  intro f
  induction f with
  | zero =>
    intro g s hf hg
    exact absurd hf (Nat.not_lt_zero _)
  | succ f ih =>
    intro g s hf hg
    cases g with
    | zero => exact absurd hg (Nat.not_lt_zero _)
    | succ g =>
      cases s with
      | nil => rfl
      | cons c rest =>
        unfold renderT
        by_cases h1 : c = '{'
        · rw [if_pos h1, if_pos h1]
          cases rest with
          | nil => rfl
          | cons d rest2 =>
            simp only []
            by_cases h2 : d = '{'
            · rw [if_pos h2, if_pos h2]
              rw [ih g rest2 (by simp only [List.length_cons] at hf; omega)
                (by simp only [List.length_cons] at hg; omega)]
            · rw [if_neg h2, if_neg h2]
              cases hs : scanField (d :: rest2) with
              | none => rfl
              | some p =>
                obtain ⟨name, rest3⟩ := p
                have hl := scanField_len _ _ _ hs
                simp only []
                have hf' : (c :: d :: rest2).length < f + 1 := hf
                have hg' : (c :: d :: rest2).length < g + 1 := hg
                simp only [List.length_cons] at hf' hg' hl
                by_cases h3 :
                  (name.isEmpty || name.all isAsciiDigit || name.any isFieldDelim) = true
                · rw [if_pos h3, if_pos h3]
                · rw [if_neg h3, if_neg h3]
                  cases lookup name with
                  | none =>
                    simp only []
                    rw [ih g rest3 (by omega) (by omega)]
                  | some v =>
                    simp only []
                    rw [ih g rest3 (by omega) (by omega)]
        · rw [if_neg h1, if_neg h1]
          by_cases h2 : c = '}'
          · rw [if_pos h2, if_pos h2]
            cases rest with
            | nil => rfl
            | cons d rest2 =>
              simp only []
              by_cases h3 : d = '}'
              · rw [if_pos h3, if_pos h3]
                rw [ih g rest2 (by simp only [List.length_cons] at hf; omega)
                  (by simp only [List.length_cons] at hg; omega)]
              · rw [if_neg h3, if_neg h3]
          · rw [if_neg h2, if_neg h2]
            rw [ih g rest (by simp only [List.length_cons] at hf; omega)
              (by simp only [List.length_cons] at hg; omega)]

theorem renderT_field (lookup : List Char → Option (List Char)) (name rest : List Char)
    (hne : name ≠ []) (hdig : name.all isAsciiDigit = false)
    (hdelim : name.any isFieldDelim = false)
    (hchars : ∀ c ∈ name, c ≠ '{' ∧ c ≠ '}') :
    renderTemplate lookup ('{' :: name ++ '}' :: rest) =
      (match lookup name with
       | some v => (renderTemplate lookup rest).map fun t => v ++ t
       | none => (renderTemplate lookup rest).map fun t => '{' :: (name ++ '}' :: t)) := by
  obtain ⟨c0, name', rfl⟩ : ∃ c0 name', name = c0 :: name' := by
    cases name with
    | nil => exact absurd rfl hne
    | cons c0 name' => exact ⟨c0, name', rfl⟩
  unfold renderTemplate
  simp only [List.cons_append]
  rw [renderT_succ, if_pos rfl]
  simp only []
  rw [if_neg (hchars c0 (by simp)).1]
  rw [show scanField (c0 :: (name' ++ '}' :: rest)) = some (c0 :: name', rest) from by
    rw [← List.cons_append]
    exact scanField_concat _ _ hchars]
  simp only []
  rw [if_neg (by simp [hdig, hdelim])]
  have hfuel : renderT lookup ('{' :: c0 :: (name' ++ '}' :: rest)).length rest =
      renderT lookup (rest.length + 1) rest := by
    refine renderT_fuel lookup _ _ rest ?_ (by omega)
    simp only [List.length_cons, List.length_append]
    omega
  cases lookup (c0 :: name') with
  | none =>
    simp only []
    rw [hfuel]
    simp only [List.cons_append]
  | some v =>
    simp only []
    rw [hfuel]

theorem render_links_names (templates : List (List Char × LinkVal))
    (lookup : List Char → Option (List Char)) :
    ∀ nm out, (nm, out) ∈ (render_links templates lookup).1 →
      nm ∈ templates.map Prod.fst := by
  induction templates with
  | nil =>
    intro nm out h
    simp [render_links] at h
  | cons entry rest ih =>
    intro nm out h
    obtain ⟨nm', v'⟩ := entry
    cases v' with
    | other =>
      simp only [render_links] at h
      simp only [List.map_cons]
      exact List.mem_cons_of_mem _ (ih nm out h)
    | str t =>
      simp only [render_links] at h
      simp only [List.map_cons]
      cases hr : renderTemplate lookup t with
      | some out' =>
        rw [hr] at h
        simp only [] at h
        rcases List.mem_cons.1 h with heq | htail
        · obtain ⟨h1, h2⟩ := Prod.mk.injEq .. ▸ heq
          exact h1 ▸ List.mem_cons_self _ _
        · exact List.mem_cons_of_mem _ (ih nm out htail)
      | none =>
        rw [hr] at h
        simp only [] at h
        exact List.mem_cons_of_mem _ (ih nm out h)

theorem render_links_other (templates : List (List Char × LinkVal))
    (lookup : List Char → Option (List Char)) (nm : List Char) :
    (nm, LinkVal.other) ∈ templates → (templates.map Prod.fst).Nodup →
      (∀ out, (nm, out) ∉ (render_links templates lookup).1) ∧
      (render_links templates lookup).2 ≠ [] := by
  induction templates with
  | nil =>
    intro h
    simp at h
  | cons entry rest ih =>
    intro hmem hnd
    obtain ⟨nm', v'⟩ := entry
    simp only [List.map_cons, List.nodup_cons] at hnd
    obtain ⟨hnotin, hnd'⟩ := hnd
    rcases List.mem_cons.1 hmem with heq | htail
    · obtain ⟨h1, h2⟩ : nm = nm' ∧ LinkVal.other = v' := by
        constructor
        · exact congrArg Prod.fst heq
        · exact congrArg Prod.snd heq
      subst h1
      subst h2
      constructor
      · intro out hout
        simp only [render_links] at hout
        exact hnotin (render_links_names rest lookup nm out hout)
      · simp [render_links]
    · obtain ⟨ih1, ih2⟩ := ih htail hnd'
      have hinrest : nm ∈ rest.map Prod.fst :=
        List.mem_map_of_mem Prod.fst htail
      cases v' with
      | other =>
        constructor
        · intro out hout
          simp only [render_links] at hout
          exact ih1 out hout
        · simp [render_links]
      | str t =>
        constructor
        · intro out hout
          simp only [render_links] at hout
          cases hr : renderTemplate lookup t with
          | some out' =>
            rw [hr] at hout
            simp only [] at hout
            rcases List.mem_cons.1 hout with heq | htail2
            · have : nm = nm' := congrArg Prod.fst heq
              exact hnotin (this ▸ hinrest)
            · exact ih1 out htail2
          | none =>
            rw [hr] at hout
            simp only [] at hout
            exact ih1 out hout
        · simp only [render_links]
          cases hr : renderTemplate lookup t with
          | some out' =>
            simp only []
            exact ih2
          | none =>
            simp only []
            simp

/-- C9, counterexample: the claim says any placeholder whose name is not
one of the five known names is left textually intact in the rendered
output and is never an error.  But the positional placeholder `{0}` ("0"
is not a known name) makes CPython's `format_map` raise `IndexError`
(`format_map` receives no positional arguments), and `{a:y}` raises
`ValueError` (the format code `y` applied to the string that
`_SafeFormatDict.__missing__` returns for the missing key `a`); in both
cases `_render_links` records a warning and excludes the link instead of
rendering it with the placeholder intact. -/
theorem C9_counterexample :
    renderTemplate (fun _ => none) ("{0}".toList) = none ∧
    renderTemplate (fun _ => none) ("{a:y}".toList) = none ∧
    (render_links [("docs".toList, LinkVal.str ("{0}".toList))] (fun _ => none)).1 = [] ∧
    (render_links [("docs".toList, LinkVal.str ("{0}".toList))] (fun _ => none)).2 ≠ [] :=
  by decide

/-- C9, amended: (1) a placeholder name outside the known set
`{id, prefix, suffix, uuid, created_at}` is not in the mapping; (2) a
field whose name is a plain ASCII mapping key — non-empty, not all digits
(a positional reference), free of the conversion/spec/accessor delimiters
`!`, `:`, `.`, `[` and of braces — with an unmapped name is left textually
intact, braces included, in the rendered output; (3) a template entry
whose value is not a string is excluded from the rendered links entirely
and produces a warning; (4) the known placeholders are substituted with
the identifier-derived values — `{id}` with the full identifier string and
`{created_at}` with the ISO rendering of the timestamp or the empty
string; (5) a mapped plain field is substituted with its value. -/
theorem C9_link_rendering_amended :
    (∀ ex uuidStr iso (name : List Char),
      name ≠ "id".toList → name ≠ "prefix".toList → name ≠ "suffix".toList →
      name ≠ "uuid".toList → name ≠ "created_at".toList →
      lookupMapping ex uuidStr iso name = none) ∧
    (∀ (lookup : List Char → Option (List Char)) (name rest : List Char),
      name ≠ [] → name.all isAsciiDigit = false → name.any isFieldDelim = false →
      (∀ c ∈ name, c.toNat < 128) → (∀ c ∈ name, c ≠ '{' ∧ c ≠ '}') →
      lookup name = none →
      renderTemplate lookup ('{' :: name ++ '}' :: rest) =
        (renderTemplate lookup rest).map fun t => '{' :: (name ++ '}' :: t)) ∧
    (∀ templates (lookup : List Char → Option (List Char)) (nm : List Char),
      (nm, LinkVal.other) ∈ templates → (templates.map Prod.fst).Nodup →
      (∀ out, (nm, out) ∉ (render_links templates lookup).1) ∧
      (render_links templates lookup).2 ≠ []) ∧
    (∀ ex uuidStr iso,
      lookupMapping ex uuidStr iso ("id".toList) = some ex.id ∧
      lookupMapping ex uuidStr iso ("created_at".toList) =
        some (match ex.parsed.createdAtMs with | some ms => iso ms | none => [])) ∧
    (∀ (lookup : List Char → Option (List Char)) (name rest v : List Char),
      name ≠ [] → name.all isAsciiDigit = false → name.any isFieldDelim = false →
      (∀ c ∈ name, c.toNat < 128) → (∀ c ∈ name, c ≠ '{' ∧ c ≠ '}') →
      lookup name = some v →
      renderTemplate lookup ('{' :: name ++ '}' :: rest) =
        (renderTemplate lookup rest).map fun t => v ++ t) := by
  refine ⟨?_, ?_, render_links_other, ?_, ?_⟩
  · intro ex uuidStr iso name h1 h2 h3 h4 h5
    unfold lookupMapping
    rw [if_neg h1, if_neg h2, if_neg h3, if_neg h4, if_neg h5]
  · intro lookup name rest hne hdig hdelim _ hchars hlook
    rw [renderT_field lookup name rest hne hdig hdelim hchars, hlook]
  · intro ex uuidStr iso
    constructor
    · rfl
    · rfl
  · intro lookup name rest v hne hdig hdelim _ hchars hlook
    rw [renderT_field lookup name rest hne hdig hdelim hchars, hlook]

/-- Witness for C9's amended theorem at concrete inputs, including the
claim's own example placeholder name. -/
theorem C9_link_rendering_amended_witness :
    lookupMapping ⟨[], false, ⟨[], none, none, false, [], none, none, none⟩, [], [], []⟩
        (fun _ => []) (fun _ => []) ("does_not_exist".toList) = none ∧
    renderTemplate (fun _ => none) ('{' :: "does_not_exist".toList ++ '}' :: "/x".toList) =
      (renderTemplate (fun _ => none) ("/x".toList)).map
        (fun t => '{' :: ("does_not_exist".toList ++ '}' :: t)) ∧
    (("logs".toList, []) : List Char × List Char) ∉
      (render_links [("logs".toList, LinkVal.other)] (fun _ => none)).1 ∧
    (render_links [("logs".toList, LinkVal.other)] (fun _ => none)).2 ≠ [] := by
  refine ⟨C9_link_rendering_amended.1 _ _ _ _ (by decide) (by decide) (by decide)
    (by decide) (by decide),
    C9_link_rendering_amended.2.1 _ _ _ (by decide) (by decide) (by decide) (by decide)
      (by decide) rfl,
    (C9_link_rendering_amended.2.2.1 _ (fun _ => none) _ (by simp) (by simp)).1 [],
    (C9_link_rendering_amended.2.2.1 _ (fun _ => none) ("logs".toList) (by simp)
      (by simp)).2⟩

end TypeidPy
